import Mathlib

/-!
Verification of the Zoom recording-processing pipeline and its client
resolver, shallowly embedded from the Python source (`src/`):

* `src/models/recording.py` — `ProcessingStatus`, webhook payload accessors
* `src/database.py` — persisted `Recording` / `Client` rows
* `src/services/client_service.py` — 4-tier client resolver and the
  cumulative-summary refresh
* `src/services/summary_service.py` — prompt construction
* `src/workers/processing_worker.py` — the pipeline, bulk retry sweep
* `src/webhook/zoom_handler.py` — recording-completed ingestion
* `src/utils/retry.py` — the exponential-backoff retry combinator

External effects (download, upload, GPT, Notion, Sheets, Calendar, Slack)
are modelled as an environment of `Except`-valued oracles; the GPT oracle
is keyed by the exact prompt string the code would send.  Exceptions are
modelled as their formatted message text (`str(e)` plus traceback).
-/

set_option maxRecDepth 4000

abbrev Err := String

/-- `ProcessingStatus` enum of `src/models/recording.py`. -/
inductive ProcessingStatus where
  | pending
  | downloading
  | uploading_youtube
  | transcribing
  | summarizing
  | saving
  | completed
  | failed
deriving DecidableEq

/-- The string token of each `ProcessingStatus` member (its enum value). -/
def ProcessingStatus.value : ProcessingStatus → String
  | .pending => "pending"
  | .downloading => "downloading"
  | .uploading_youtube => "uploading_youtube"
  | .transcribing => "transcribing"
  | .summarizing => "summarizing"
  | .saving => "saving"
  | .completed => "completed"
  | .failed => "failed"

/-- A datetime value: an epoch ordinal used for comparison and the
`strftime("%Y-%m-%d")` rendering used when formatting summaries. -/
structure DateTime where
  epoch : Nat
  ymd : String
deriving DecidableEq

/-- A `recordings` row (`DBRecording` in `src/database.py`). -/
structure Recording where
  id : Nat
  zoom_meeting_id : String
  zoom_meeting_uuid : String
  topic : String
  start_time : DateTime
  duration_minutes : Nat
  host_email : String
  recording_url : String
  recording_type : String
  status : ProcessingStatus
  error_message : Option String
  retry_count : Nat
  youtube_url : Option String
  transcript : Option String
  summary : Option String
  decisions : Option String
  action_items : Option String
  client_id : Option Nat
  calendar_event_id : Option String
  notion_page_id : Option String
  completed_at : Option DateTime
deriving DecidableEq

/-- A `clients` row (`DBClient` in `src/database.py`); the JSON-encoded
`zoom_meeting_ids` / `title_patterns` columns are modelled as lists. -/
structure Client where
  id : Nat
  name : String
  description : Option String
  cumulative_summary : Option String
  zoom_meeting_ids : List String
  title_patterns : List String
  meeting_count : Nat
  last_meeting_at : Option DateTime
  notion_page_id : Option String
deriving DecidableEq

/-- The clients table plus the autoincrement counter for fresh ids. -/
structure ClientsState where
  clients : List Client
  nextId : Nat
deriving DecidableEq

/-- Observable events of a pipeline run: each persisted status write, and
each invocation of the AI client-identification call with the domain list
and domain placeholder text it was given. -/
inductive Event where
  | statusWrite (s : ProcessingStatus)
  | identifyQuery (domains : List String) (domainsText : String) (prompt : String)
deriving DecidableEq

/-- Boolean list-prefix test (used to model Python's `in` on strings). -/
def isPrefixB : List Char → List Char → Bool
  | [], _ => true
  | _ :: _, [] => false
  | a :: as, b :: bs => a == b && isPrefixB as bs

/-- Boolean substring test on character lists: Python's `needle in hay`. -/
def isSubstrB (needle : List Char) : List Char → Bool
  | [] => needle.isEmpty
  | c :: rest => isPrefixB needle (c :: rest) || isSubstrB needle rest

/-- Python `str.strip()`: drop whitespace from both ends. -/
def pyStrip (s : String) : String :=
  let l := s.toList.dropWhile Char.isWhitespace
  String.mk ((l.reverse.dropWhile Char.isWhitespace).reverse)

/-- Python slicing `s[:n]`: the first `n` characters (all of `s` when it
is shorter). -/
def pySlice (s : String) (n : Nat) : String :=
  String.mk (s.toList.take n)

/-- Python slicing `s[-n:]`: the last `n` characters. -/
def pySliceEnd (s : String) (n : Nat) : String :=
  String.mk ((s.toList.reverse.take n).reverse)

/-- Lazy bracket matching after an opening bracket: the shortest non-empty
run of non-newline characters up to the closing glyph (`(.+?)` with `.`
not matching a newline), as Python `re` does at a fixed start position. -/
def lazyClose (cl : Char) (acc : List Char) : List Char → Option (List Char)
  | [] => none
  | c :: rest =>
    if c == cl then some acc.reverse
    else if c == '\n' then none
    else lazyClose cl (c :: acc) rest

/-- Match `opc (.+?) cl` at one start position: first content character
must exist and be a non-newline, then `lazyClose` finds the closer. -/
def lazyAfterOpen (cl : Char) : List Char → Option (List Char)
  | [] => none
  | c :: rest => if c == '\n' then none else lazyClose cl [c] rest

/-- `re.search` for `opc(.+?)cl`: leftmost successful start position. -/
def reSearchBracket (opc cl : Char) : List Char → Option (List Char)
  | [] => none
  | c :: rest =>
    if c == opc then
      match lazyAfterOpen cl rest with
      | some content => some content
      | none => reSearchBracket opc cl rest
    else reSearchBracket opc cl rest

/-- `ClientService._extract_client_from_title`: name inside `【】`, else
inside `[]`, stripped. -/
def extractClientFromTitle (title : String) : Option String :=
  match reSearchBracket '【' '】' title.toList with
  | some content => some (pyStrip (String.mk content))
  | none =>
    match reSearchBracket '[' ']' title.toList with
    | some content => some (pyStrip (String.mk content))
    | none => none

/-- `ClientService._match_by_meeting_id`: first client whose learned
meeting-id list contains the id. -/
def matchByMeetingId (clients : List Client) (zoomMeetingId : String) : Option Client :=
  clients.find? (fun c => c.zoom_meeting_ids.contains zoomMeetingId)

/-- `ClientService._match_by_title_pattern`: first client one of whose
stored patterns — or whose own name — occurs (case-insensitively) in the
title. -/
def matchByTitlePattern (clients : List Client) (title : String) : Option Client :=
  let tl := title.toLower.toList
  clients.find? (fun c =>
    c.title_patterns.any (fun p => isSubstrB p.toLower.toList tl)
      || isSubstrB c.name.toLower.toList tl)

/-- `ClientService._add_meeting_id_to_client`: append the id if absent. -/
def addMeetingId (c : Client) (zoomMeetingId : String) : Client :=
  if c.zoom_meeting_ids.contains zoomMeetingId then c
  else { c with zoom_meeting_ids := c.zoom_meeting_ids ++ [zoomMeetingId] }

/-- Commit a mutated client object back into the table (by primary key). -/
def updClient (clients : List Client) (c : Client) : List Client :=
  clients.map (fun x => if x.id == c.id then c else x)

/-- The row `_get_or_create_client` inserts when no client of the name
exists: fresh id, the meeting id as only learned id, the name as only
title pattern. -/
def freshClient (st : ClientsState) (name zoomMeetingId : String) : Client :=
  { id := st.nextId, name := name, description := none,
    cumulative_summary := none, zoom_meeting_ids := [zoomMeetingId],
    title_patterns := [name], meeting_count := 0,
    last_meeting_at := none, notion_page_id := none }

/-- `ClientService._get_or_create_client`. -/
def getOrCreateClient (st : ClientsState) (name zoomMeetingId : String) :
    Client × ClientsState :=
  match st.clients.find? (fun c => c.name == name) with
  | some c =>
    let c' := addMeetingId c zoomMeetingId
    (c', { st with clients := updClient st.clients c' })
  | none =>
    let c := freshClient st name zoomMeetingId
    (c, { clients := st.clients ++ [c], nextId := st.nextId + 1 })

/-- `ClientService._extract_domains`: domains of addresses containing `@`
(the segment after the first `@`), minus the free-mail deny list,
de-duplicated. -/
def extractDomains (emails : List String) : List String :=
  emails.foldl
    (fun acc email =>
      if (email.toList).contains '@' then
        match (email.splitOn "@").get? 1 with
        | some domain =>
          if domain ∈ (["gmail.com", "yahoo.co.jp", "outlook.com"] : List String) then acc
          else if domain ∈ acc then acc
          else acc ++ [domain]
        | none => acc
      else acc)
    []

/-- `", ".join(email_domains) if email_domains else "不明"` in
`SummaryService.identify_client`. -/
def domainsText (ds : List String) : String :=
  if ds.isEmpty then "不明" else String.intercalate ", " ds

/-- `DEFAULT_CLIENT_IDENTIFY_PROMPT` of `src/services/summary_service.py`,
with the three placeholders substituted as `str.format` does. -/
def identifyPrompt (title domains transcriptStart : String) : String :=
  "以下はZoomミーティングの情報です。このミーティングがどのクライアント（顧客・取引先）に関するものか特定してください。\n\nミーティングタイトル: "
    ++ title
    ++ "\n参加者のメールドメイン: " ++ domains
    ++ "\n会話の冒頭部分: " ++ transcriptStart
    ++ "\n\nクライアント名を1つだけ回答してください。特定できない場合は「不明」と回答してください。\n回答には企業名のみを含め、説明は不要です。\n\nクライアント名："

/-- `SummaryService._truncate_transcript`: keep head and tail halves once
over 30000 characters. -/
def truncateTranscript (t : String) : String :=
  if t.length ≤ 30000 then t
  else pySlice t 15000 ++ "\n\n... (中略) ...\n\n" ++ pySliceEnd t 15000

/-- `DEFAULT_SUMMARY_PROMPT` with the transcript substituted. -/
def summaryPrompt (tr : String) : String :=
  "以下はZoomミーティングの文字起こしです。この内容を日本語で要約してください。\n\n要約には以下の項目を含めてください：\n1. ミーティングの概要（2-3文）\n2. 主要な議題（箇条書き）\n3. 重要なポイント（箇条書き）\n\n文字起こし：\n"
    ++ tr ++ "\n\n要約："

/-- `DEFAULT_DECISIONS_PROMPT` with the transcript substituted. -/
def decisionsPrompt (tr : String) : String :=
  "以下はZoomミーティングの文字起こしです。このミーティングで決定された事項を抽出してください。\n\n決定事項がない場合は「決定事項なし」と回答してください。\n箇条書きで、具体的かつ簡潔に記載してください。\n\n文字起こし：\n"
    ++ tr ++ "\n\n決定事項："

/-- `DEFAULT_ACTIONS_PROMPT` with the transcript substituted. -/
def actionsPrompt (tr : String) : String :=
  "以下はZoomミーティングの文字起こしです。このミーティングで発生したアクションアイテム（TODO、宿題、次のステップ）を抽出してください。\n\nアクションアイテムがない場合は「アクションアイテムなし」と回答してください。\n可能であれば、担当者と期限も含めてください。\n箇条書きで記載してください。\n\n文字起こし：\n"
    ++ tr ++ "\n\nアクションアイテム："

/-- One dated block `【date】\nsummary` per meeting, joined by the
`\n\n---\n\n` separator (`SummaryService.generate_cumulative_summary`). -/
def formatMeetingSummaries (ms : List (String × String)) : String :=
  String.intercalate "\n\n---\n\n" (ms.map (fun p => "【" ++ p.1 ++ "】\n" ++ p.2))

/-- `DEFAULT_CUMULATIVE_PROMPT` with the formatted history substituted. -/
def cumulativePrompt (summariesText : String) : String :=
  "あなたはプロジェクト管理のアシスタントです。\n以下はあるクライアントとの複数回のミーティング要約履歴です。\nこれらを分析し、プロジェクト全体の状況を把握できる累積サマリーを作成してください。\n\n累積サマリーには以下を含めてください：\n1. プロジェクト概要（何のプロジェクトか、現在のフェーズ）\n2. これまでの主要マイルストーン（達成済みの重要な成果）\n3. 現在進行中の作業\n4. 未解決の課題・懸念事項\n5. 次のステップ・予定されているアクション\n\n過去のミーティング要約：\n"
    ++ summariesText ++ "\n\n累積サマリー："

/-- The external-effect environment of one pipeline run: each adapter call
as an `Except`-valued outcome; `gpt` is keyed by the prompt string sent. -/
structure Env where
  download : Except Err String
  upload : Except Err String
  transcribe : Except Err String
  gpt : String → Except Err String
  notionCreateClientPage : Except Err String
  notionCreateMeetingPage : Except Err String
  sheetsAppendMeeting : Except Err Unit
  sheetsAppendClientSheet : Except Err Unit
  calendarFind : Except Err (Option String)
  calendarUpdate : Except Err Unit
  notionUpdateClientSummary : Except Err Unit
  sheetsUpdateClientSummary : Except Err Unit
  notifyComplete : Except Err Unit
  notifyError : Except Err Unit
  notifyIdentify : Except Err Unit
  now : DateTime

deriving instance DecidableEq for Except

/-- Result of one resolver call: outcome, updated clients table, events. -/
structure IdentifyResult where
  res : Except Err (Option Client)
  st : ClientsState
  events : List Event
deriving DecidableEq

/-- Tier 4 of `ClientService.identify_client`: AI inference, only when a
(non-empty) transcript excerpt is available; `SummaryService.identify_client`
builds the prompt from the title, joined domains and the excerpt's first
1000 characters, and strips the response; an empty or `不明` response is no
match, anything else goes through get-or-create. -/
def identifyTier4 (st : ClientsState) (env : Env) (meetingTitle zoomMeetingId : String)
    (transcriptStart : Option String) (participantEmails : Option (List String)) :
    IdentifyResult :=
  match transcriptStart with
  | none => ⟨.ok none, st, []⟩
  | some ts =>
    if ts = "" then ⟨.ok none, st, []⟩
    else
      let domains := extractDomains (participantEmails.getD [])
      let dtext := domainsText domains
      let prompt := identifyPrompt meetingTitle dtext (pySlice ts 1000)
      let ev : Event := .identifyQuery domains dtext prompt
      match env.gpt prompt with
      | .error e => ⟨.error e, st, [ev]⟩
      | .ok raw =>
        let inferred := pyStrip raw
        if inferred ≠ "" ∧ inferred ≠ "不明" then
          let (c, st') := getOrCreateClient st inferred zoomMeetingId
          ⟨.ok (some c), st', [ev]⟩
        else ⟨.ok none, st, [ev]⟩

/-- Tier 3 of `ClientService.identify_client`: stored-pattern match with
write-back of the meeting id, falling through to tier 4. -/
def identifyTier3 (st : ClientsState) (env : Env) (meetingTitle zoomMeetingId : String)
    (transcriptStart : Option String) (participantEmails : Option (List String)) :
    IdentifyResult :=
  match matchByTitlePattern st.clients meetingTitle with
  | some c =>
    let c' := addMeetingId c zoomMeetingId
    ⟨.ok (some c'), { st with clients := updClient st.clients c' }, []⟩
  | none => identifyTier4 st env meetingTitle zoomMeetingId transcriptStart participantEmails

/-- `ClientService.identify_client`: the 4-tier cascade.  Tier 2 requires
the extracted bracket name to be truthy (non-empty) in Python. -/
def identifyClient (st : ClientsState) (env : Env) (meetingTitle zoomMeetingId : String)
    (transcriptStart : Option String) (participantEmails : Option (List String)) :
    IdentifyResult :=
  match matchByMeetingId st.clients zoomMeetingId with
  | some c => ⟨.ok (some c), st, []⟩
  | none =>
    match extractClientFromTitle meetingTitle with
    | some name =>
      if name = "" then
        identifyTier3 st env meetingTitle zoomMeetingId transcriptStart participantEmails
      else
        let (c, st') := getOrCreateClient st name zoomMeetingId
        ⟨.ok (some c), st', []⟩
    | none => identifyTier3 st env meetingTitle zoomMeetingId transcriptStart participantEmails

/-- Ascending order on recording start times used by
`ORDER BY recordings.start_time`. -/
def startTimeLE (a b : Recording) : Prop := a.start_time.epoch ≤ b.start_time.epoch

instance : DecidableRel startTimeLE := fun a b =>
  inferInstanceAs (Decidable (a.start_time.epoch ≤ b.start_time.epoch))

instance : IsTotal Recording startTimeLE :=
  ⟨fun a b => Nat.le_total a.start_time.epoch b.start_time.epoch⟩

instance : IsTrans Recording startTimeLE :=
  ⟨fun _ _ _ h1 h2 => Nat.le_trans h1 h2⟩

/-- The rows the rollup query loads: the client's recordings whose summary
column is not NULL. -/
def summarizedRecordingsOf (recordings : List Recording) (clientId : Nat) :
    List Recording :=
  recordings.filter (fun r => r.client_id == some clientId && r.summary != none)

/-- The rollup query's result list: `ORDER BY start_time` ascending. -/
def sortedSummarized (recordings : List Recording) (clientId : Nat) : List Recording :=
  List.insertionSort startTimeLE (summarizedRecordingsOf recordings clientId)

/-- The client row after a rollup: cumulative summary replaced, meeting
count recomputed, last-meeting timestamp set to the last loaded row's
start time (the list is nonempty whenever this is reached). -/
def clientAfterSummary (c : Client) (cumulative : String) (meetings : List Recording) :
    Client :=
  { c with
    cumulative_summary := some cumulative,
    meeting_count := meetings.length,
    last_meeting_at := match meetings.getLast? with
      | some m => some m.start_time
      | none => c.last_meeting_at }

/-- The GPT prompt the rollup sends, over the dated blocks of the loaded
rows in ascending start-time order. -/
def rollupPrompt (meetings : List Recording) : String :=
  cumulativePrompt (formatMeetingSummaries
    (meetings.map (fun m => (m.start_time.ymd, m.summary.getD ""))))

/-- `ClientService.update_client_summary`: load the client's recordings
whose summary column is not NULL, ordered by start time ascending; empty →
return `""` and change nothing; otherwise one GPT call over the dated
blocks, then replace the cumulative summary, meeting count and
last-meeting timestamp. -/
def updateClientSummary (st : ClientsState) (recordings : List Recording) (env : Env)
    (clientId : Nat) : Except Err (String × ClientsState) :=
  match st.clients.find? (fun c => c.id == clientId) with
  | none => .error ("Client not found: " ++ toString clientId)
  | some client =>
    let meetings := sortedSummarized recordings clientId
    if meetings.isEmpty then .ok ("", st)
    else
      match env.gpt (rollupPrompt meetings) with
      | .error e => .error e
      | .ok cumulative =>
        let client' := clientAfterSummary client cumulative meetings
        .ok (cumulative, { st with clients := updClient st.clients client' })

/-- Final state of one `process_recording` run: the recording row, the
clients table, the event trace and the call's outcome (`error` = the
handler re-raised). -/
structure RunResult where
  record : Recording
  st : ClientsState
  trace : List Event
  outcome : Except Err Unit
deriving DecidableEq

/-- The `except Exception` handler of `process_recording`: status→failed,
store the truncated error text, bump the retry counter, commit; the error
notification and file cleanup in the handler are best-effort (their own
failure is swallowed and changes no persisted state), then re-raise. -/
def failHandler (rec : Recording) (st : ClientsState) (tr : List Event) (e : Err) :
    RunResult :=
  { record := { rec with
      status := .failed,
      error_message := some (pySlice e 2000),
      retry_count := rec.retry_count + 1 },
    st := st,
    trace := tr ++ [.statusWrite .failed],
    outcome := .error e }

/-- Step 9 + 10: completion notification, then status→completed with a
completion timestamp. -/
def stage9 (env : Env) (st : ClientsState) (rec : Recording) (tr : List Event) :
    RunResult :=
  match env.notifyComplete with
  | .error e => failHandler rec st tr e
  | .ok _ =>
    { record := { rec with status := .completed, completed_at := some env.now },
      st := st,
      trace := tr ++ [.statusWrite .completed],
      outcome := .ok () }

/-- Tail of step 8: Sheets-side client summary propagation. -/
def stage8b (env : Env) (_others : List Recording) (st : ClientsState)
    (rec : Recording) (tr : List Event) : RunResult :=
  match env.sheetsUpdateClientSummary with
  | .error e => failHandler rec st tr e
  | .ok _ => stage9 env st rec tr

/-- Step 8: if a client was identified, refresh its cumulative summary
(the recordings table now contains the committed current recording) and
propagate it to Notion (only when the client has a page) and Sheets. -/
def stage8 (env : Env) (others : List Recording) (st : ClientsState)
    (clientOpt : Option Client) (rec : Recording) (tr : List Event) : RunResult :=
  match clientOpt with
  | none => stage9 env st rec tr
  | some c =>
    match updateClientSummary st (others ++ [rec]) env c.id with
    | .error e => failHandler rec st tr e
    | .ok (_cumulative, st') =>
      match c.notion_page_id with
      | some _ =>
        match env.notionUpdateClientSummary with
        | .error e => failHandler rec st' tr e
        | .ok _ => stage8b env others st' rec tr
      | none => stage8b env others st' rec tr

/-- Step 7: calendar lookup; a found event is updated and its id
persisted, a missing event is silently skipped. -/
def stage7 (env : Env) (others : List Recording) (st : ClientsState)
    (clientOpt : Option Client) (rec : Recording) (tr : List Event) : RunResult :=
  match env.calendarFind with
  | .error e => failHandler rec st tr e
  | .ok none => stage8 env others st clientOpt rec tr
  | .ok (some eventId) =>
    match env.calendarUpdate with
    | .error e => failHandler rec st tr e
    | .ok _ =>
      stage8 env others st clientOpt ({ rec with calendar_event_id := some eventId }) tr

/-- Tail of step 6: master-sheet row, then per-client sheet row when a
client was identified. -/
def stage6c (env : Env) (others : List Recording) (st : ClientsState)
    (clientOpt : Option Client) (rec : Recording) (tr : List Event) : RunResult :=
  match env.sheetsAppendMeeting with
  | .error e => failHandler rec st tr e
  | .ok _ =>
    match clientOpt with
    | some _ =>
      match env.sheetsAppendClientSheet with
      | .error e => failHandler rec st tr e
      | .ok _ => stage7 env others st clientOpt rec tr
    | none => stage7 env others st clientOpt rec tr

/-- Middle of step 6: Notion meeting page, committed on the recording. -/
def stage6b (env : Env) (others : List Recording) (st : ClientsState)
    (clientOpt : Option Client) (rec : Recording) (tr : List Event) : RunResult :=
  match env.notionCreateMeetingPage with
  | .error e => failHandler rec st tr e
  | .ok pageId =>
    stage6c env others st clientOpt ({ rec with notion_page_id := some pageId }) tr

/-- Step 6 entry: status→saving; an identified client without a Notion
page gets one created and committed first. -/
def stage6 (env : Env) (others : List Recording) (st : ClientsState)
    (clientOpt : Option Client) (rec : Recording) (tr : List Event) : RunResult :=
  let rec6 := { rec with status := ProcessingStatus.saving }
  let tr6 := tr ++ [Event.statusWrite .saving]
  match clientOpt with
  | none => stage6b env others st none rec6 tr6
  | some c =>
    match c.notion_page_id with
    | some _ => stage6b env others st (some c) rec6 tr6
    | none =>
      match env.notionCreateClientPage with
      | .error e => failHandler rec6 st tr6 e
      | .ok pageId =>
        let c' := { c with notion_page_id := some pageId }
        stage6b env others { st with clients := updClient st.clients c' } (some c') rec6 tr6

/-- `process_recording` of `src/workers/processing_worker.py`, driving one
recording row through all stages; `others` are the other rows of the
recordings table (visible to the step-8 rollup query). -/
def processRecording (env : Env) (others : List Recording) (st0 : ClientsState)
    (rec0 : Recording) : RunResult :=
  let rec1 := { rec0 with status := ProcessingStatus.downloading }
  let tr1 : List Event := [.statusWrite .downloading]
  match env.download with
  | .error e => failHandler rec1 st0 tr1 e
  | .ok _localFile =>
    let rec2 := { rec1 with status := ProcessingStatus.uploading_youtube }
    let tr2 := tr1 ++ [Event.statusWrite .uploading_youtube]
    match env.upload with
    | .error e => failHandler rec2 st0 tr2 e
    | .ok url =>
      let rec2b := { rec2 with youtube_url := some url }
      let rec3 := { rec2b with status := ProcessingStatus.transcribing }
      let tr3 := tr2 ++ [Event.statusWrite .transcribing]
      match env.transcribe with
      | .error e => failHandler rec3 st0 tr3 e
      | .ok t =>
        let rec3b := { rec3 with transcript := some t }
        let rec4 := { rec3b with status := ProcessingStatus.summarizing }
        let tr4 := tr3 ++ [Event.statusWrite .summarizing]
        match env.gpt (summaryPrompt (truncateTranscript t)),
              env.gpt (decisionsPrompt (truncateTranscript t)),
              env.gpt (actionsPrompt (truncateTranscript t)) with
        | .error e, _, _ => failHandler rec4 st0 tr4 e
        | .ok _, .error e, _ => failHandler rec4 st0 tr4 e
        | .ok _, .ok _, .error e => failHandler rec4 st0 tr4 e
        | .ok s, .ok d, .ok a =>
          let rec4b := { rec4 with
            summary := some s, decisions := some d, action_items := some a }
          let tsArg : Option String := if t ≠ "" then some (pySlice t 2000) else none
          match identifyClient st0 env rec0.topic rec0.zoom_meeting_id tsArg none with
          | ⟨.error e, st5, evs5⟩ => failHandler rec4b st5 (tr4 ++ evs5) e
          | ⟨.ok (some c), st5, evs5⟩ =>
            stage6 env others st5 (some c)
              ({ rec4b with client_id := some c.id }) (tr4 ++ evs5)
          | ⟨.ok none, st5, evs5⟩ =>
            match env.notifyIdentify with
            | .error e => failHandler rec4b st5 (tr4 ++ evs5) e
            | .ok _ => stage6 env others st5 none rec4b (tr4 ++ evs5)

/-- The persisted-status writes of a trace, in order. -/
def statusWrites (tr : List Event) : List ProcessingStatus :=
  tr.filterMap (fun ev => match ev with
    | .statusWrite s => some s
    | _ => none)

/-- One entry of a webhook payload's `recording_files` list. -/
structure WebhookFile where
  file_type : String
  download_url : String
deriving DecidableEq

/-- The fields of a `recording.completed` webhook event that the handler
reads (`ZoomWebhookPayload` accessors in `src/models/recording.py`). -/
structure WebhookPayload where
  meeting_id : String
  meeting_uuid : String
  topic : String
  start_time : Option DateTime
  duration : Nat
  host_email : String
  files : List WebhookFile
deriving DecidableEq

/-- `ZoomWebhookPayload.get_mp4_file`: among the MP4/M4A files of the
payload, the first MP4 one. -/
def getMp4File (p : WebhookPayload) : Option WebhookFile :=
  (p.files.filter (fun f => f.file_type == "MP4" || f.file_type == "M4A")).find?
    (fun f => f.file_type == "MP4")

/-- The recordings table plus its autoincrement counter. -/
structure RecordingsDB where
  recordings : List Recording
  nextRecId : Nat
deriving DecidableEq

/-- Result of the completion handler: the table afterwards, and the id of
the recording queued for background processing, if any. -/
structure WebhookResult where
  db : RecordingsDB
  scheduled : Option Nat
deriving DecidableEq

/-- `handle_recording_completed` of `src/webhook/zoom_handler.py`: ignore
events without an MP4 file, return without changes when a row with the
same occurrence uuid exists, otherwise insert a pending row and queue it. -/
def handleRecordingCompleted (db : RecordingsDB) (now : DateTime)
    (p : WebhookPayload) : WebhookResult :=
  match getMp4File p with
  | none => ⟨db, none⟩
  | some f =>
    if db.recordings.any (fun r => r.zoom_meeting_uuid == p.meeting_uuid) then
      ⟨db, none⟩
    else
      let r : Recording :=
        { id := db.nextRecId,
          zoom_meeting_id := p.meeting_id,
          zoom_meeting_uuid := p.meeting_uuid,
          topic := p.topic,
          start_time := p.start_time.getD now,
          duration_minutes := p.duration,
          host_email := p.host_email,
          recording_url := f.download_url,
          recording_type := f.file_type,
          status := .pending,
          error_message := none,
          retry_count := 0,
          youtube_url := none,
          transcript := none,
          summary := none,
          decisions := none,
          action_items := none,
          client_id := none,
          calendar_event_id := none,
          notion_page_id := none,
          completed_at := none }
      ⟨⟨db.recordings ++ [r], db.nextRecId + 1⟩, some r.id⟩

/-- `retry_failed_recordings` of `src/workers/processing_worker.py`: the
rows selected for resubmission (`status == FAILED and retry_count < 3`). -/
def retryFailedRecordings (recs : List Recording) : List Recording :=
  recs.filter (fun r =>
    r.status == ProcessingStatus.failed && r.retry_count < 3)

/-- Outcome of the retry combinator: a successful attempt's value, the
final attempt's re-raised exception, or (only for a zero attempt ceiling)
the `raise last_exception` with `None` fall-through. -/
inductive RetryOutcome (E A : Type) where
  | success (value : A) (invocations : Nat)
  | exhausted (err : E) (invocations : Nat)
  | noAttempt
deriving DecidableEq

/-- A retry run's outcome together with the backoff delays slept. -/
structure RetryTrace (E A : Type) where
  outcome : RetryOutcome E A
  delays : List ℚ
deriving DecidableEq

/-- Number of invocations of the wrapped operation. -/
def RetryOutcome.invocations : RetryOutcome E A → Nat
  | .success _ n => n
  | .exhausted _ n => n
  | .noAttempt => 0

/-- The `for attempt in range(1, max_attempts + 1)` loop of `async_retry`
(`src/utils/retry.py`): `f` gives the outcome of each attempt, `remaining`
counts attempts still allowed (the ceiling check `attempt == max_attempts`
is `remaining = 1`); on a caught failure before the last attempt, sleep
the current delay and continue with `min(delay * base, maxDelay)`. -/
def retryGo (f : Nat → Except E A) (base maxDelay : ℚ) :
    Nat → Nat → ℚ → List ℚ → RetryTrace E A
  | 0, _, _, delays => ⟨.noAttempt, delays⟩
  | remaining + 1, attempt, delay, delays =>
    match f attempt with
    | .ok a => ⟨.success a attempt, delays⟩
    | .error e =>
      if remaining = 0 then ⟨.exhausted e attempt, delays⟩
      else retryGo f base maxDelay remaining (attempt + 1)
        (min (delay * base) maxDelay) (delays ++ [delay])

/-- `async_retry(max_attempts, initial_delay, max_delay, exponential_base)`
applied to an operation whose per-attempt outcomes are `f 1, f 2, …`. -/
def asyncRetry (f : Nat → Except E A) (maxAttempts : Nat)
    (initialDelay maxDelay base : ℚ) : RetryTrace E A :=
  retryGo f base maxDelay maxAttempts 1 initialDelay []

/-- Replace the clients table of a state (abbreviation used in theorem
statements). -/
def setClients (st : ClientsState) (cs : List Client) : ClientsState :=
  { st with clients := cs }

/-! Concrete fixtures used by witnesses and counterexamples. -/

/-- An environment in which every external call succeeds. -/
def envAllOk : Env :=
  { download := .ok "/tmp/rec/M1.mp4",
    upload := .ok "https://youtu.be/video1",
    transcribe := .ok "hello transcript",
    gpt := fun _ => .ok "GPT",
    notionCreateClientPage := .ok "client-page",
    notionCreateMeetingPage := .ok "meeting-page",
    sheetsAppendMeeting := .ok (),
    sheetsAppendClientSheet := .ok (),
    calendarFind := .ok none,
    calendarUpdate := .ok (),
    notionUpdateClientSummary := .ok (),
    sheetsUpdateClientSummary := .ok (),
    notifyComplete := .ok (),
    notifyError := .ok (),
    notifyIdentify := .ok (),
    now := ⟨20240501, "2024-05-01"⟩ }

/-- A freshly ingested pending recording. -/
def recPending : Recording :=
  { id := 1, zoom_meeting_id := "M1", zoom_meeting_uuid := "U1", topic := "T",
    start_time := ⟨20240110, "2024-01-10"⟩, duration_minutes := 30,
    host_email := "host@example.com", recording_url := "https://zoom/dl",
    recording_type := "MP4", status := .pending, error_message := none,
    retry_count := 0, youtube_url := none, transcript := none, summary := none,
    decisions := none, action_items := none, client_id := none,
    calendar_event_id := none, notion_page_id := none, completed_at := none }

/-- A webhook payload carrying one MP4 file. -/
def payloadW : WebhookPayload :=
  { meeting_id := "M1", meeting_uuid := "U1", topic := "T",
    start_time := some ⟨20240110, "2024-01-10"⟩, duration := 30,
    host_email := "host@example.com",
    files := [⟨"MP4", "https://zoom/dl"⟩] }

def dtW : DateTime := ⟨20240101, "2024-01-01"⟩

def emptyRecDB : RecordingsDB := ⟨[], 1⟩

/-- The "Acme" client fixture. -/
def acmeClient : Client :=
  ⟨1, "Acme", none, none, [], [], 0, none, none⟩

/-- A recording of account 1 whose summary is the empty string (non-NULL,
but not non-empty). -/
def recEmptySummary : Recording :=
  { recPending with id := 2, summary := some "", client_id := some 1 }

def stAcme : ClientsState := ⟨[acmeClient], 2⟩

/-- All-ok environment whose GPT oracle always answers `CUM`. -/
def envCum : Env := { envAllOk with gpt := fun _ => .ok "CUM" }

/-- The clients table after the rollup counted the empty-string summary. -/
def stAcmeAfterEmpty : ClientsState :=
  ⟨[{ acmeClient with
      cumulative_summary := some "CUM", meeting_count := 1,
      last_meeting_at := some ⟨20240110, "2024-01-10"⟩ }], 2⟩

/-- Three summarized recordings of account 1 dated 2024-01-10, 2024-02-14
and 2024-03-01 (the §8 scenario). -/
def recJan : Recording :=
  { recPending with
    id := 2, client_id := some 1, summary := some "S-jan",
    start_time := ⟨20240110, "2024-01-10"⟩ }

def recFeb : Recording :=
  { recPending with
    id := 3, client_id := some 1, summary := some "S-feb",
    start_time := ⟨20240214, "2024-02-14"⟩ }

def recMar : Recording :=
  { recPending with
    id := 4, client_id := some 1, summary := some "S-mar",
    start_time := ⟨20240301, "2024-03-01"⟩ }

/-- Display names are pairwise distinct (the `UNIQUE` constraint on
`clients.name`). -/
def NamesUnique (st : ClientsState) : Prop :=
  st.clients.Pairwise (fun a b => a.name ≠ b.name)

/-- Primary keys are pairwise distinct. -/
def IdsUnique (st : ClientsState) : Prop :=
  st.clients.Pairwise (fun a b => a.id ≠ b.id)

/-- The autoincrement counter is ahead of every existing primary key. -/
def FreshIds (st : ClientsState) : Prop :=
  ∀ c ∈ st.clients, c.id < st.nextId

/-- No stable meeting id is learned by two different clients. -/
def MidsDisjoint (st : ClientsState) : Prop :=
  st.clients.Pairwise
    (fun a b => ∀ m, m ∈ a.zoom_meeting_ids → m ∉ b.zoom_meeting_ids)

/-- The resolver's state invariant. -/
def ResolverInv (st : ClientsState) : Prop :=
  NamesUnique st ∧ IdsUnique st ∧ FreshIds st ∧ MidsDisjoint st

/-- An existing account named `Acme株式会社` with a different learned id. -/
def acmeKK : Client :=
  ⟨1, "Acme株式会社", none, none, ["OTHER"], ["Acme株式会社"], 0, none, none⟩

def stAcmeKK : ClientsState := ⟨[acmeKK], 2⟩

def acmeTitle : String := "【Acme株式会社】Weekly Sync"

/-- All-ok environment whose calendar lookup raises. -/
def envCalFail : Env := { envAllOk with calendarFind := .error "calendar api down" }

/-- All-ok environment whose completion notification raises. -/
def envNotifyFail : Env := { envAllOk with notifyComplete := .error "slack down" }

/-- All-ok environment whose transcription raises. -/
def envTranscribeFail : Env :=
  { envAllOk with transcribe := .error "whisper failed" }

/-- The Acme account after write-back of meeting id `M1`. -/
def acmeWB : Client := { acmeKK with zoom_meeting_ids := ["OTHER", "M1"] }

/-- An operation failing on attempt 1 and succeeding from attempt 2. -/
def retryOpOnce : Nat → Except Err Nat :=
  fun j => if j = 1 then .error "boom 1" else .ok 7

def retryErrText : Nat → Err := fun j => "boom " ++ toString j

/-- An operation failing on every attempt. -/
def retryOpAlwaysFail : Nat → Except Err Nat :=
  fun j => .error (retryErrText j)

/-- C7: the bulk retry sweep resubmits exactly the recordings whose status
is `failed` and whose retry count is strictly below 3; non-failed rows and
failed rows at or above the ceiling are never selected. -/
theorem retry_sweep_exactly_failed_below_ceiling :
    ∀ (recs : List Recording) (r : Recording),
      r ∈ retryFailedRecordings recs ↔
        r ∈ recs ∧ r.status = ProcessingStatus.failed ∧ r.retry_count < 3 := by
  intro recs r
  simp [retryFailedRecordings, List.mem_filter]

/-- A completion event whose occurrence uuid already has a row is a
no-op. -/
lemma handle_dup_noop (db : RecordingsDB) (now : DateTime) (p : WebhookPayload)
    (h : ∃ r ∈ db.recordings, r.zoom_meeting_uuid = p.meeting_uuid) :
    handleRecordingCompleted db now p = ⟨db, none⟩ := by
  obtain ⟨r, hr, huuid⟩ := h
  cases hm : getMp4File p with
  | none => simp [handleRecordingCompleted, hm]
  | some f =>
    have hany : db.recordings.any (fun r => r.zoom_meeting_uuid == p.meeting_uuid) = true := by
      simp only [List.any_eq_true, beq_iff_eq]
      exact ⟨r, hr, huuid⟩
    simp [handleRecordingCompleted, hm, hany]

/-- C2: ingestion is idempotent on the occurrence id.  First conjunct: a
completion event whose occurrence uuid already has a row is a no-op — the
table is unchanged and nothing is queued.  Second conjunct: starting from
a table with no row for the uuid, after one event there is at most one
row for it, and a second event with the same uuid returns the table
unchanged and queues nothing. -/
theorem webhook_ingestion_idempotent :
    (∀ (db : RecordingsDB) (now : DateTime) (p : WebhookPayload),
        (∃ r ∈ db.recordings, r.zoom_meeting_uuid = p.meeting_uuid) →
        handleRecordingCompleted db now p = ⟨db, none⟩) ∧
    (∀ (db : RecordingsDB) (now now2 : DateTime) (p : WebhookPayload),
        db.recordings.countP (fun r => r.zoom_meeting_uuid == p.meeting_uuid) = 0 →
        (handleRecordingCompleted db now p).db.recordings.countP
            (fun r => r.zoom_meeting_uuid == p.meeting_uuid) ≤ 1 ∧
          handleRecordingCompleted (handleRecordingCompleted db now p).db now2 p =
            ⟨(handleRecordingCompleted db now p).db, none⟩) := by
  constructor
  · exact handle_dup_noop
  · intro db now now2 p h0
    have hall : ∀ r ∈ db.recordings, ¬(r.zoom_meeting_uuid == p.meeting_uuid) = true := by
      simpa using List.countP_eq_zero.mp h0
    cases hm : getMp4File p with
    | none =>
      refine ⟨?_, ?_⟩
      · simp [handleRecordingCompleted, hm, h0]
      · simp [handleRecordingCompleted, hm]
    | some f =>
      have hany : db.recordings.any (fun r => r.zoom_meeting_uuid == p.meeting_uuid) = false := by
        simp only [List.any_eq_false]
        exact hall
      refine ⟨?_, ?_⟩
      · simp [handleRecordingCompleted, hm, hany, List.countP_append, List.countP_cons,
          List.countP_nil, h0]
      · refine handle_dup_noop _ now2 p ?_
        have hfull : handleRecordingCompleted db now p =
            ⟨⟨db.recordings ++
                [⟨db.nextRecId, p.meeting_id, p.meeting_uuid, p.topic,
                  p.start_time.getD now, p.duration, p.host_email, f.download_url,
                  f.file_type, .pending, none, 0, none, none, none, none, none,
                  none, none, none, none⟩],
              db.nextRecId + 1⟩, some db.nextRecId⟩ := by
          simp [handleRecordingCompleted, hm, hany]
        rw [hfull]
        exact ⟨⟨db.nextRecId, p.meeting_id, p.meeting_uuid, p.topic,
          p.start_time.getD now, p.duration, p.host_email, f.download_url,
          f.file_type, .pending, none, 0, none, none, none, none, none,
          none, none, none, none⟩, by simp, rfl⟩

/-- Witness for C2 at a concrete payload and an empty table. -/
theorem webhook_ingestion_idempotent_witness :
    emptyRecDB.recordings.countP
        (fun r => r.zoom_meeting_uuid == payloadW.meeting_uuid) = 0 ∧
      ((handleRecordingCompleted emptyRecDB dtW payloadW).db.recordings.countP
          (fun r => r.zoom_meeting_uuid == payloadW.meeting_uuid) ≤ 1 ∧
        handleRecordingCompleted
            (handleRecordingCompleted emptyRecDB dtW payloadW).db dtW payloadW =
          ⟨(handleRecordingCompleted emptyRecDB dtW payloadW).db, none⟩) :=
  ⟨by decide,
    webhook_ingestion_idempotent.2 emptyRecDB dtW dtW payloadW (by decide)⟩

/-- In an ascending-sorted list the last element is a maximum and a
member. -/
lemma sorted_last_max :
    ∀ (l : List Recording), List.Sorted startTimeLE l →
      ∀ m, l.getLast? = some m →
        m ∈ l ∧ ∀ x ∈ l, x.start_time.epoch ≤ m.start_time.epoch := by
  intro l
  induction l with
  | nil => intro _ m hm; cases hm
  | cons a t ih =>
    intro hs m hm
    cases t with
    | nil =>
      simp only [List.getLast?_singleton, Option.some.injEq] at hm
      subst hm
      exact ⟨List.mem_singleton_self a, by
        intro x hx
        rw [List.mem_singleton] at hx
        subst hx
        exact Nat.le_refl _⟩
    | cons b t' =>
      rw [List.getLast?_cons_cons] at hm
      rw [List.sorted_cons] at hs
      obtain ⟨hmem, hmax⟩ := ih hs.2 m hm
      refine ⟨List.mem_cons_of_mem a hmem, ?_⟩
      intro x hx
      rcases List.mem_cons.mp hx with hxa | hxt
      · subst hxa
        exact hs.1 m hmem
      · exact hmax x hxt

/-- C8 counterexample: account 1's only recording has `some ""` as its
summary, so the account has no recording with a *non-empty* summary; the
claim then requires the refresh to return `""` and change nothing, but the
code's filter is `summary IS NOT NULL`, so it counts the row: it returns
the generated text and rewrites the account (meeting count becomes 1). -/
theorem client_rollup_counterexample_empty_string_summary :
    (∀ r ∈ ([recEmptySummary] : List Recording),
        r.client_id = some 1 → r.summary = none ∨ r.summary = some "") ∧
      updateClientSummary stAcme [recEmptySummary] envCum 1 =
        .ok ("CUM", stAcmeAfterEmpty) ∧
      stAcmeAfterEmpty ≠ stAcme ∧
      stAcmeAfterEmpty.clients.map Client.meeting_count = [1] := by
  refine ⟨by decide, by decide, by decide, by decide⟩

/-- C8 (amended: "non-empty summary" reads "non-NULL summary").  First
conjunct: with no non-NULL-summary recording for the account, the refresh
returns `""` and leaves the table unchanged.  Second: the aggregator input
is exactly the account's non-NULL-summary recordings in ascending
start-time order.  Third: otherwise the result replaces the client's
cumulative summary with the generated text, sets the meeting count to the
number of such recordings and the last-meeting timestamp to the latest
such start time. -/
theorem client_rollup_replaces_summary :
    (∀ (st : ClientsState) (recs : List Recording) (env : Env) (cid : Nat) (c : Client),
        st.clients.find? (fun x => x.id == cid) = some c →
        (∀ r ∈ recs, r.client_id = some cid → r.summary = none) →
        updateClientSummary st recs env cid = .ok ("", st)) ∧
    (∀ (recs : List Recording) (cid : Nat),
        List.Sorted startTimeLE (sortedSummarized recs cid) ∧
        (sortedSummarized recs cid).Perm (summarizedRecordingsOf recs cid)) ∧
    (∀ (st : ClientsState) (recs : List Recording) (env : Env) (cid : Nat)
        (c : Client) (cum : String),
        st.clients.find? (fun x => x.id == cid) = some c →
        sortedSummarized recs cid ≠ [] →
        env.gpt (rollupPrompt (sortedSummarized recs cid)) = .ok cum →
        updateClientSummary st recs env cid =
            .ok (cum, setClients st (updClient st.clients
              (clientAfterSummary c cum (sortedSummarized recs cid)))) ∧
          (clientAfterSummary c cum (sortedSummarized recs cid)).cumulative_summary =
            some cum ∧
          (clientAfterSummary c cum (sortedSummarized recs cid)).meeting_count =
            (summarizedRecordingsOf recs cid).length ∧
          ∀ m, (sortedSummarized recs cid).getLast? = some m →
            (clientAfterSummary c cum (sortedSummarized recs cid)).last_meeting_at =
                some m.start_time ∧
              m ∈ summarizedRecordingsOf recs cid ∧
              ∀ r ∈ summarizedRecordingsOf recs cid,
                r.start_time.epoch ≤ m.start_time.epoch) := by
  refine ⟨?_, ?_, ?_⟩
  · intro st recs env cid c hfind hnone
    have hnil : summarizedRecordingsOf recs cid = [] := by
      rw [summarizedRecordingsOf, List.filter_eq_nil_iff]
      intro r hr
      simp only [Bool.and_eq_true, beq_iff_eq, bne_iff_ne, ne_eq, not_and, not_not]
      intro hcid
      exact hnone r hr hcid
    have hsorted : sortedSummarized recs cid = [] := by
      rw [sortedSummarized, hnil]
      rfl
    simp [updateClientSummary, hfind, hsorted]
  · intro recs cid
    exact ⟨List.sorted_insertionSort startTimeLE _,
      List.perm_insertionSort startTimeLE _⟩
  · intro st recs env cid c cum hfind hne hgpt
    have hempty : (sortedSummarized recs cid).isEmpty = false := by
      rw [← Bool.not_eq_true, List.isEmpty_iff]
      exact hne
    refine ⟨?_, rfl, ?_, ?_⟩
    · simp [updateClientSummary, hfind, hempty, hgpt, setClients]
    · exact (List.perm_insertionSort startTimeLE _).length_eq
    · intro m hm
      obtain ⟨hmem, hmax⟩ :=
        sorted_last_max _ (List.sorted_insertionSort startTimeLE _) m hm
      refine ⟨?_, ?_, ?_⟩
      · simp [clientAfterSummary, hm]
      · exact (List.perm_insertionSort startTimeLE _).mem_iff.mp hmem
      · intro r hr
        exact hmax r (((List.perm_insertionSort startTimeLE _).mem_iff).mpr hr)

/-- Witness for C8 at the §8 scenario: account "Acme" with summarized
recordings dated 2024-01-10, 2024-02-14 and 2024-03-01 — meeting count 3,
last-meeting timestamp 2024-03-01. -/
theorem client_rollup_replaces_summary_witness :
    stAcme.clients.find? (fun x => x.id == 1) = some acmeClient ∧
      sortedSummarized [recMar, recJan, recFeb] 1 ≠ [] ∧
      updateClientSummary stAcme [recMar, recJan, recFeb] envCum 1 =
          .ok ("CUM", setClients stAcme (updClient stAcme.clients
            (clientAfterSummary acmeClient "CUM"
              (sortedSummarized [recMar, recJan, recFeb] 1)))) ∧
      (clientAfterSummary acmeClient "CUM"
          (sortedSummarized [recMar, recJan, recFeb] 1)).meeting_count = 3 ∧
      (clientAfterSummary acmeClient "CUM"
          (sortedSummarized [recMar, recJan, recFeb] 1)).last_meeting_at =
        some ⟨20240301, "2024-03-01"⟩ :=
  ⟨by decide, by decide,
    (client_rollup_replaces_summary.2.2 stAcme [recMar, recJan, recFeb] envCum 1
      acmeClient "CUM" (by decide) (by decide) rfl).1,
    by decide, by decide⟩

/-- `find?` returns the given element when it satisfies the predicate and
is the only member doing so. -/
lemma find?_eq_some_of_unique {α : Type} (p : α → Bool) (l : List α) (c : α)
    (hc : c ∈ l) (hp : p c = true) (huniq : ∀ a ∈ l, p a = true → a = c) :
    l.find? p = some c := by
  induction l with
  | nil => cases hc
  | cons a t ih =>
    cases hpa : p a with
    | true =>
      have ha := huniq a (List.mem_cons_self a t) hpa
      simp [List.find?_cons, hpa, ha, hp]
    | false =>
      have hct : c ∈ t := by
        rcases List.mem_cons.mp hc with h | h
        · subst h; rw [hp] at hpa; cases hpa
        · exact h
      simp only [List.find?_cons, hpa]
      exact ih hct (fun a ha hpa2 => huniq a (List.mem_cons_of_mem _ ha) hpa2)

/-- Write-back always lands the id in the learned set. -/
lemma mem_ids_addMeetingId (c : Client) (mid : String) :
    mid ∈ (addMeetingId c mid).zoom_meeting_ids := by
  unfold addMeetingId
  cases hc : c.zoom_meeting_ids.contains mid with
  | true => simpa using hc
  | false => simp

lemma addMeetingId_id (c : Client) (mid : String) :
    (addMeetingId c mid).id = c.id := by
  unfold addMeetingId; split <;> rfl

lemma addMeetingId_name (c : Client) (mid : String) :
    (addMeetingId c mid).name = c.name := by
  unfold addMeetingId; split <;> rfl

lemma ids_addMeetingId_sub (c : Client) (mid x : String)
    (h : x ∈ (addMeetingId c mid).zoom_meeting_ids) :
    x ∈ c.zoom_meeting_ids ∨ x = mid := by
  unfold addMeetingId at h
  split at h
  · exact Or.inl h
  · rcases List.mem_append.mp h with h | h
    · exact Or.inl h
    · exact Or.inr (List.mem_singleton.mp h)

/-- Committing a mutated object keeps it a member of the table, at the
position of any row with the same primary key. -/
lemma mem_updClient {l : List Client} {a b : Client} (ha : a ∈ l)
    (hid : b.id = a.id) : b ∈ updClient l b := by
  unfold updClient
  refine List.mem_map.mpr ⟨a, ha, ?_⟩
  simp [hid]

/-- When no row has the given id yet, `_match_by_meeting_id` misses. -/
lemma matchByMeetingId_none (clients : List Client) (mid : String)
    (h : ∀ c ∈ clients, mid ∉ c.zoom_meeting_ids) :
    matchByMeetingId clients mid = none := by
  rw [matchByMeetingId, List.find?_eq_none]
  intro x hx
  simpa using h x hx

/-- Get-or-create puts the meeting id on the returned client, and the
returned client is in the resulting table. -/
lemma getOrCreate_writeback (st : ClientsState) (name mid : String) :
    mid ∈ (getOrCreateClient st name mid).1.zoom_meeting_ids ∧
      (getOrCreateClient st name mid).1 ∈ (getOrCreateClient st name mid).2.clients := by
  cases hf : st.clients.find? (fun x => x.name == name) with
  | some c0 =>
    simp only [getOrCreateClient, hf]
    exact ⟨mem_ids_addMeetingId _ _,
      mem_updClient (List.mem_of_find?_eq_some hf) (addMeetingId_id _ _)⟩
  | none =>
    simp only [getOrCreateClient, hf]
    exact ⟨by simp [freshClient], List.mem_append_right _ (List.mem_singleton_self _)⟩

lemma matchByTitlePattern_mem {clients : List Client} {title : String} {c : Client}
    (h : matchByTitlePattern clients title = some c) : c ∈ clients :=
  List.mem_of_find?_eq_some h

/-- Write-back through tiers 3–4: when they produce a client, the meeting
id is in its learned set and the client is in the resulting table. -/
lemma identifyTier3_writeback (st : ClientsState) (env : Env) (title mid : String)
    (ts : Option String) (em : Option (List String)) (c : Client)
    (hres : (identifyTier3 st env title mid ts em).res = .ok (some c)) :
    mid ∈ c.zoom_meeting_ids ∧
      c ∈ (identifyTier3 st env title mid ts em).st.clients := by
  unfold identifyTier3 at hres ⊢
  cases hm : matchByTitlePattern st.clients title with
  | some c0 =>
    simp only [hm] at hres ⊢
    have hc : c = addMeetingId c0 mid := by
      simpa using hres.symm
    subst hc
    exact ⟨mem_ids_addMeetingId _ _,
      mem_updClient (matchByTitlePattern_mem hm) (addMeetingId_id _ _)⟩
  | none =>
    simp only [hm] at hres ⊢
    unfold identifyTier4 at hres ⊢
    cases ts with
    | none => simp at hres
    | some t =>
      by_cases ht : t = ""
      · simp [ht] at hres
      · simp only [if_neg ht] at hres ⊢
        rcases hgo : getOrCreateClient st
            (pyStrip ((env.gpt (identifyPrompt title
              (domainsText (extractDomains (em.getD []))) (pySlice t 1000))).toOption.getD ""))
            mid with ⟨cg, stg⟩
        cases hg : env.gpt (identifyPrompt title
            (domainsText (extractDomains (em.getD []))) (pySlice t 1000)) with
        | error e => simp [hg] at hres
        | ok raw =>
          simp only [hg] at hres ⊢
          by_cases hinf : pyStrip raw ≠ "" ∧ pyStrip raw ≠ "不明"
          · rw [hg] at hgo
            simp only [Except.toOption, Option.getD] at hgo
            rcases hgo2 : getOrCreateClient st (pyStrip raw) mid with ⟨cg2, stg2⟩
            simp only [hgo2, if_pos hinf] at hres ⊢
            have hc : c = cg2 := by simpa using hres.symm
            subst hc
            have := getOrCreate_writeback st (pyStrip raw) mid
            rw [hgo2] at this
            exact this
          · simp [hinf] at hres

/-- C6 counterexample: with an account named `Acme株式会社` already present
(learned ids `["OTHER"]` only, so no account matches the call's meeting id
`M1`), the resolver does *not* create an account for the title
`【Acme株式会社】Weekly Sync`: it reuses the existing row (the table keeps
exactly one account) and only appends the meeting id to it. -/
theorem acme_title_counterexample_existing_name :
    (∀ c ∈ stAcmeKK.clients, "M1" ∉ c.zoom_meeting_ids) ∧
      (identifyClient stAcmeKK envAllOk acmeTitle "M1" none none).st.clients.length = 1 ∧
      (identifyClient stAcmeKK envAllOk acmeTitle "M1" none none).st.clients.map
          Client.name = ["Acme株式会社"] ∧
      (identifyClient stAcmeKK envAllOk acmeTitle "M1" none none).res =
        .ok (some { acmeKK with zoom_meeting_ids := ["OTHER", "M1"] }) ∧
      (identifyClient stAcmeKK envAllOk acmeTitle "M1" none none).st.nextId =
        stAcmeKK.nextId := by
  refine ⟨by decide, by decide, by decide, by decide, by decide⟩

/-- C6 (amended: creation additionally requires that no account of that
display name exists — otherwise the existing account is reused, not
duplicated).  First conjunct: for the title `【Acme株式会社】Weekly Sync`,
when no account matches the meeting id and no account is named
`Acme株式会社`, the resolver creates and returns a fresh account named
exactly `Acme株式会社` whose learned ids are exactly the current meeting
id.  Second conjunct (write-back, as claimed): whenever no account had the
meeting id before the call and the resolver returns a client, that
client's learned-id set contains the meeting id, the client is in the
resulting table, and a subsequent tier-1 lookup with that id succeeds. -/
theorem acme_title_creates_account :
    (∀ (st : ClientsState) (env : Env) (mid : String) (ts : Option String)
        (em : Option (List String)),
        (∀ c ∈ st.clients, mid ∉ c.zoom_meeting_ids) →
        (∀ c ∈ st.clients, c.name ≠ "Acme株式会社") →
        identifyClient st env acmeTitle mid ts em =
            ⟨.ok (some (freshClient st "Acme株式会社" mid)),
              ⟨st.clients ++ [freshClient st "Acme株式会社" mid], st.nextId + 1⟩, []⟩ ∧
          (freshClient st "Acme株式会社" mid).name = "Acme株式会社" ∧
          (freshClient st "Acme株式会社" mid).zoom_meeting_ids = [mid]) ∧
    (∀ (st : ClientsState) (env : Env) (title mid : String) (ts : Option String)
        (em : Option (List String)) (c : Client),
        (∀ x ∈ st.clients, mid ∉ x.zoom_meeting_ids) →
        (identifyClient st env title mid ts em).res = .ok (some c) →
        mid ∈ c.zoom_meeting_ids ∧
          c ∈ (identifyClient st env title mid ts em).st.clients ∧
          (matchByMeetingId
              (identifyClient st env title mid ts em).st.clients mid).isSome) := by
  constructor
  · intro st env mid ts em hno hname
    have h1 : matchByMeetingId st.clients mid = none :=
      matchByMeetingId_none st.clients mid hno
    have hext : extractClientFromTitle acmeTitle = some "Acme株式会社" := by decide
    have hfind : st.clients.find? (fun x => x.name == "Acme株式会社") = none := by
      rw [List.find?_eq_none]
      intro x hx
      simpa using hname x hx
    refine ⟨?_, rfl, rfl⟩
    simp [identifyClient, h1, hext, getOrCreateClient, hfind]
  · intro st env title mid ts em c hno hres
    have h1 : matchByMeetingId st.clients mid = none :=
      matchByMeetingId_none st.clients mid hno
    have hmain : mid ∈ c.zoom_meeting_ids ∧
        c ∈ (identifyClient st env title mid ts em).st.clients := by
      simp only [identifyClient, h1] at hres ⊢
      cases hext : extractClientFromTitle title with
      | some name =>
        simp only [hext] at hres ⊢
        by_cases hn : name = ""
        · simp only [if_pos hn] at hres ⊢
          exact identifyTier3_writeback st env title mid ts em c hres
        · simp only [if_neg hn] at hres ⊢
          rcases hgo : getOrCreateClient st name mid with ⟨cg, stg⟩
          simp only [hgo] at hres ⊢
          have hc : c = cg := by simpa using hres.symm
          subst hc
          have := getOrCreate_writeback st name mid
          rw [hgo] at this
          exact this
      | none =>
        simp only [hext] at hres ⊢
        exact identifyTier3_writeback st env title mid ts em c hres
    refine ⟨hmain.1, hmain.2, ?_⟩
    rw [matchByMeetingId, List.find?_isSome]
    exact ⟨c, hmain.2, by simpa using hmain.1⟩

/-- Witness for C6: creation from an empty table, and write-back plus
tier-1 resolvability at the concrete reuse state. -/
theorem acme_title_creates_account_witness :
    (identifyClient ⟨[], 1⟩ envAllOk acmeTitle "M1" none none =
        ⟨.ok (some (freshClient ⟨[], 1⟩ "Acme株式会社" "M1")),
          ⟨([] : List Client) ++ [freshClient ⟨[], 1⟩ "Acme株式会社" "M1"], 1 + 1⟩, []⟩ ∧
      (freshClient ⟨[], 1⟩ "Acme株式会社" "M1").name = "Acme株式会社" ∧
      (freshClient ⟨[], 1⟩ "Acme株式会社" "M1").zoom_meeting_ids = ["M1"]) ∧
    ("M1" ∈ acmeWB.zoom_meeting_ids ∧
      acmeWB ∈ (identifyClient stAcmeKK envAllOk acmeTitle "M1" none none).st.clients ∧
      (matchByMeetingId
          (identifyClient stAcmeKK envAllOk acmeTitle "M1" none none).st.clients
          "M1").isSome) :=
  ⟨acme_title_creates_account.1 ⟨[], 1⟩ envAllOk "M1" none none
      (by decide) (by decide),
    acme_title_creates_account.2 stAcmeKK envAllOk acmeTitle "M1" none none acmeWB
      (by decide) (by decide)⟩

/-- Committing a mutated row rewrites exactly the position of the row with
that primary key when the surrounding rows have different keys. -/
lemma updClient_decomp (l1 l2 : List Client) (c c' : Client) (hid : c'.id = c.id)
    (h1 : ∀ x ∈ l1, x.id ≠ c.id) (h2 : ∀ x ∈ l2, x.id ≠ c.id) :
    updClient (l1 ++ c :: l2) c' = l1 ++ c' :: l2 := by
  unfold updClient
  rw [List.map_append, List.map_cons]
  have e1 : l1.map (fun x => if x.id == c'.id then c' else x) = l1 := by
    conv_rhs => rw [← List.map_id l1]
    refine List.map_congr_left ?_
    intro x hx
    have hxne : (x.id == c'.id) = false := by
      simp only [hid, beq_eq_false_iff_ne, ne_eq]
      exact h1 x hx
    simp [hxne]
  have e2 : l2.map (fun x => if x.id == c'.id then c' else x) = l2 := by
    conv_rhs => rw [← List.map_id l2]
    refine List.map_congr_left ?_
    intro x hx
    have hxne : (x.id == c'.id) = false := by
      simp only [hid, beq_eq_false_iff_ne, ne_eq]
      exact h2 x hx
    simp [hxne]
  have ec : (if c.id == c'.id then c' else c) = c' := by
    simp [hid]
  rw [e1, e2, ec]

/-- Splitting a member out of a table with unique primary keys. -/
lemma exists_decomp_of_idsUnique {l : List Client} {c : Client}
    (hI : l.Pairwise (fun a b => a.id ≠ b.id)) (hc : c ∈ l) :
    ∃ l1 l2, l = l1 ++ c :: l2 ∧ (∀ x ∈ l1, x.id ≠ c.id) ∧
      (∀ x ∈ l2, x.id ≠ c.id) := by
  obtain ⟨l1, l2, rfl⟩ := List.append_of_mem hc
  refine ⟨l1, l2, rfl, ?_, ?_⟩
  · rw [List.pairwise_append] at hI
    exact fun x hx => hI.2.2 x hx c (List.mem_cons_self _ _)
  · rw [List.pairwise_append, List.pairwise_cons] at hI
    exact fun x hx => (hI.2.1.1 x hx).symm

lemma setClients_clients (st : ClientsState) (l : List Client) :
    (setClients st l).clients = l := rfl

lemma setClients_nextId (st : ClientsState) (l : List Client) :
    (setClients st l).nextId = st.nextId := rfl

/-- Adding a not-yet-learned meeting id to a member row preserves the
resolver invariant (the table's names, keys and counter are untouched and
the id was nowhere else). -/
lemma inv_updClient_addMid {st : ClientsState} {c : Client} {mid : String}
    (hinv : ResolverInv st) (hc : c ∈ st.clients)
    (hmid : ∀ x ∈ st.clients, mid ∉ x.zoom_meeting_ids) :
    ResolverInv (setClients st (updClient st.clients (addMeetingId c mid))) := by
  obtain ⟨hN, hI, hF, hM⟩ := hinv
  simp only [NamesUnique] at hN
  simp only [IdsUnique] at hI
  simp only [FreshIds] at hF
  simp only [MidsDisjoint] at hM
  obtain ⟨l1, l2, hdec, h1, h2⟩ := exists_decomp_of_idsUnique hI hc
  set c' := addMeetingId c mid with hc'
  have hid : c'.id = c.id := addMeetingId_id c mid
  have hname : c'.name = c.name := addMeetingId_name c mid
  have hupd : updClient st.clients c' = l1 ++ c' :: l2 := by
    rw [hdec]
    exact updClient_decomp l1 l2 c c' hid h1 h2
  rw [hdec] at hN hI hF hM hmid
  rw [List.pairwise_append, List.pairwise_cons] at hN hI hM
  refine ⟨?_, ?_, ?_, ?_⟩
  · simp only [NamesUnique, setClients_clients, hupd]
    rw [List.pairwise_append, List.pairwise_cons]
    refine ⟨hN.1, ⟨fun b hb => ?_, hN.2.1.2⟩, fun a ha b hb => ?_⟩
    · rw [hname]
      exact hN.2.1.1 b hb
    · rcases List.mem_cons.mp hb with rfl | hb2
      · rw [hname]
        exact hN.2.2 a ha c (List.mem_cons_self _ _)
      · exact hN.2.2 a ha b (List.mem_cons_of_mem _ hb2)
  · simp only [IdsUnique, setClients_clients, hupd]
    rw [List.pairwise_append, List.pairwise_cons]
    refine ⟨hI.1, ⟨fun b hb => ?_, hI.2.1.2⟩, fun a ha b hb => ?_⟩
    · rw [hid]
      exact hI.2.1.1 b hb
    · rcases List.mem_cons.mp hb with rfl | hb2
      · rw [hid]
        exact hI.2.2 a ha c (List.mem_cons_self _ _)
      · exact hI.2.2 a ha b (List.mem_cons_of_mem _ hb2)
  · simp only [FreshIds, setClients_clients, setClients_nextId, hupd]
    intro x hx
    rcases List.mem_append.mp hx with hx1 | hx2
    · exact hF x (List.mem_append_left _ hx1)
    · rcases List.mem_cons.mp hx2 with rfl | hx3
      · rw [hid]
        exact hF c (List.mem_append_right _ (List.mem_cons_self _ _))
      · exact hF x (List.mem_append_right _ (List.mem_cons_of_mem _ hx3))
  · simp only [MidsDisjoint, setClients_clients, hupd]
    rw [List.pairwise_append, List.pairwise_cons]
    refine ⟨hM.1, ⟨fun b hb m hm => ?_, hM.2.1.2⟩, fun a ha b hb => ?_⟩
    · rcases ids_addMeetingId_sub c mid m hm with h | rfl
      · exact hM.2.1.1 b hb m h
      · exact hmid b (List.mem_append_right _ (List.mem_cons_of_mem _ hb))
    · rcases List.mem_cons.mp hb with rfl | hb2
      · intro m hm hmc
        rcases ids_addMeetingId_sub c mid m hmc with h | rfl
        · exact hM.2.2 a ha c (List.mem_cons_self _ _) m hm h
        · exact hmid a (List.mem_append_left _ ha) hm
      · exact hM.2.2 a ha b (List.mem_cons_of_mem _ hb2)

/-- Inserting a fresh client (unused name, fresh key, not-yet-learned
meeting id) preserves the resolver invariant. -/
lemma inv_append_fresh {st : ClientsState} {name mid : String}
    (hinv : ResolverInv st)
    (hname : ∀ x ∈ st.clients, x.name ≠ name)
    (hmid : ∀ x ∈ st.clients, mid ∉ x.zoom_meeting_ids) :
    ResolverInv ⟨st.clients ++ [freshClient st name mid], st.nextId + 1⟩ := by
  obtain ⟨hN, hI, hF, hM⟩ := hinv
  refine ⟨?_, ?_, ?_, ?_⟩
  · simp only [NamesUnique]
    rw [List.pairwise_append]
    refine ⟨hN, List.pairwise_singleton _ _, ?_⟩
    intro a ha b hb
    rw [List.mem_singleton] at hb
    subst hb
    exact hname a ha
  · simp only [IdsUnique]
    rw [List.pairwise_append]
    refine ⟨hI, List.pairwise_singleton _ _, ?_⟩
    intro a ha b hb
    rw [List.mem_singleton] at hb
    subst hb
    exact Nat.ne_of_lt (hF a ha)
  · simp only [FreshIds]
    intro x hx
    rcases List.mem_append.mp hx with hx1 | hx2
    · exact Nat.lt_trans (hF x hx1) (Nat.lt_succ_self _)
    · rw [List.mem_singleton] at hx2
      subst hx2
      exact Nat.lt_succ_self _
  · simp only [MidsDisjoint]
    rw [List.pairwise_append]
    refine ⟨hM, List.pairwise_singleton _ _, ?_⟩
    intro a ha b hb m hm
    rw [List.mem_singleton] at hb
    subst hb
    simp only [freshClient, List.mem_singleton]
    intro hmeq
    subst hmeq
    exact hmid a ha hm

/-- Get-or-create preserves the resolver invariant when the meeting id is
not yet learned by any client. -/
lemma inv_getOrCreate {st : ClientsState} {name mid : String}
    (hinv : ResolverInv st)
    (hmid : ∀ x ∈ st.clients, mid ∉ x.zoom_meeting_ids) :
    ResolverInv (getOrCreateClient st name mid).2 := by
  cases hf : st.clients.find? (fun x => x.name == name) with
  | some c0 =>
    simp only [getOrCreateClient, hf]
    exact inv_updClient_addMid hinv (List.mem_of_find?_eq_some hf) hmid
  | none =>
    simp only [getOrCreateClient, hf]
    refine inv_append_fresh hinv ?_ hmid
    intro x hx
    have := List.find?_eq_none.mp hf x hx
    simpa using this

/-- The resolver preserves its state invariant on every call. -/
lemma inv_identifyClient {st : ClientsState} (env : Env) (title mid : String)
    (ts : Option String) (em : Option (List String))
    (hinv : ResolverInv st) :
    ResolverInv (identifyClient st env title mid ts em).st := by
  cases h1 : matchByMeetingId st.clients mid with
  | some c => simpa [identifyClient, h1] using hinv
  | none =>
    have hmid : ∀ x ∈ st.clients, mid ∉ x.zoom_meeting_ids := by
      intro x hx
      have := List.find?_eq_none.mp h1 x hx
      simpa using this
    have htier3 : ResolverInv (identifyTier3 st env title mid ts em).st := by
      cases hp : matchByTitlePattern st.clients title with
      | some c0 =>
        simp only [identifyTier3, hp]
        exact inv_updClient_addMid hinv (matchByTitlePattern_mem hp) hmid
      | none =>
        simp only [identifyTier3, hp]
        unfold identifyTier4
        cases ts with
        | none => simpa using hinv
        | some t =>
          by_cases ht : t = ""
          · simpa [ht] using hinv
          · simp only [if_neg ht]
            cases hg : env.gpt (identifyPrompt title
                (domainsText (extractDomains (em.getD []))) (pySlice t 1000)) with
            | error e => simpa [hg] using hinv
            | ok raw =>
              simp only [hg]
              by_cases hinf : pyStrip raw ≠ "" ∧ pyStrip raw ≠ "不明"
              · rcases hgo : getOrCreateClient st (pyStrip raw) mid with ⟨cg, stg⟩
                simp only [hgo, if_pos hinf]
                have := @inv_getOrCreate st (pyStrip raw) mid hinv hmid
                rw [hgo] at this
                exact this
              · simpa [hinf] using hinv
    simp only [identifyClient, h1]
    cases hext : extractClientFromTitle title with
    | some name =>
      by_cases hn : name = ""
      · simpa [hn] using htier3
      · simp only [if_neg hn]
        rcases hgo : getOrCreateClient st name mid with ⟨cg, stg⟩
        simp only [hgo]
        have := @inv_getOrCreate st name mid hinv hmid
        rw [hgo] at this
        exact this
    | none => exact htier3

/-- C5: tiers 2–4 never duplicate an account name.  First conjunct: with
unique names and keys, get-or-create on an existing display name returns
that account with the meeting id written back, and the table's name
column is unchanged (no new row).  Second conjunct: every resolver call
preserves the invariant (unique names, unique keys, fresh counter,
pairwise-disjoint learned-id sets).  Third conjunct: once some account's
learned-id set contains a stable meeting id, any identify call with that
id returns exactly that account and leaves the state untouched. -/
theorem resolver_uniqueness_and_stability :
    (∀ (st : ClientsState) (name mid : String) (c : Client),
        NamesUnique st → IdsUnique st → c ∈ st.clients → c.name = name →
        (getOrCreateClient st name mid).1 = addMeetingId c mid ∧
          (getOrCreateClient st name mid).2.clients.map Client.name =
            st.clients.map Client.name ∧
          mid ∈ (getOrCreateClient st name mid).1.zoom_meeting_ids) ∧
    (∀ (st : ClientsState) (env : Env) (title mid : String) (ts : Option String)
        (em : Option (List String)),
        ResolverInv st → ResolverInv (identifyClient st env title mid ts em).st) ∧
    (∀ (st : ClientsState) (env : Env) (title mid : String) (ts : Option String)
        (em : Option (List String)) (c : Client),
        MidsDisjoint st → c ∈ st.clients → mid ∈ c.zoom_meeting_ids →
        identifyClient st env title mid ts em = ⟨.ok (some c), st, []⟩) := by
  refine ⟨?_,
    fun st env title mid ts em hinv => inv_identifyClient env title mid ts em hinv,
    ?_⟩
  · intro st name mid c hN hI hc hn
    simp only [NamesUnique] at hN
    simp only [IdsUnique] at hI
    have hsymm : Symmetric (fun a b : Client => a.name ≠ b.name) :=
      fun _ _ h => Ne.symm h
    have huniq : ∀ a ∈ st.clients, (a.name == name) = true → a = c := by
      intro a ha hp
      by_contra hne
      exact (hN.forall hsymm ha hc hne) (by rw [beq_iff_eq.mp hp, hn])
    have hfind := find?_eq_some_of_unique (fun x => x.name == name) st.clients c hc
      (by simp [hn]) huniq
    obtain ⟨l1, l2, hdec, h1, h2⟩ := exists_decomp_of_idsUnique hI hc
    refine ⟨?_, ?_, ?_⟩
    · simp [getOrCreateClient, hfind]
    · simp only [getOrCreateClient, hfind]
      have hupd : updClient st.clients (addMeetingId c mid) =
          l1 ++ addMeetingId c mid :: l2 := by
        rw [hdec]
        exact updClient_decomp l1 l2 c _ (addMeetingId_id c mid) h1 h2
      rw [hupd, hdec]
      simp [addMeetingId_name]
    · simp only [getOrCreateClient, hfind]
      exact mem_ids_addMeetingId c mid
  · intro st env title mid ts em c hM hc hmid
    simp only [MidsDisjoint] at hM
    have hS : st.clients.Pairwise
        (fun a b => ¬(mid ∈ a.zoom_meeting_ids ∧ mid ∈ b.zoom_meeting_ids)) :=
      hM.imp (fun h hab => h mid hab.1 hab.2)
    have hsymm : Symmetric
        (fun a b : Client => ¬(mid ∈ a.zoom_meeting_ids ∧ mid ∈ b.zoom_meeting_ids)) :=
      fun _ _ h hab => h ⟨hab.2, hab.1⟩
    have huniq : ∀ a ∈ st.clients, (a.zoom_meeting_ids.contains mid) = true → a = c := by
      intro a ha hp
      by_contra hne
      exact hS.forall hsymm ha hc hne ⟨by simpa using hp, hmid⟩
    have hfind : matchByMeetingId st.clients mid = some c := by
      rw [matchByMeetingId]
      exact find?_eq_some_of_unique _ st.clients c hc (by simpa using hmid) huniq
    simp [identifyClient, hfind]

/-- Witness for C5 at concrete states: get-or-create reuse on the Acme
account, invariant preservation through one resolver call, and stable
tier-1 resolution once `M1` is learned. -/
theorem resolver_uniqueness_and_stability_witness :
    ((getOrCreateClient stAcmeKK "Acme株式会社" "M1").1 = addMeetingId acmeKK "M1" ∧
      (getOrCreateClient stAcmeKK "Acme株式会社" "M1").2.clients.map Client.name =
        stAcmeKK.clients.map Client.name ∧
      "M1" ∈ (getOrCreateClient stAcmeKK "Acme株式会社" "M1").1.zoom_meeting_ids) ∧
    ResolverInv (identifyClient stAcmeKK envAllOk acmeTitle "M1" none none).st ∧
    identifyClient ⟨[acmeWB], 2⟩ envAllOk "untitled call" "M1" none none =
      ⟨.ok (some acmeWB), ⟨[acmeWB], 2⟩, []⟩ :=
  ⟨resolver_uniqueness_and_stability.1 stAcmeKK "Acme株式会社" "M1" acmeKK
      (by simp [NamesUnique, stAcmeKK]) (by simp [IdsUnique, stAcmeKK])
      (by decide) (by decide),
    resolver_uniqueness_and_stability.2.1 stAcmeKK envAllOk acmeTitle "M1" none none
      (by simp [ResolverInv, NamesUnique, IdsUnique, FreshIds, MidsDisjoint,
        stAcmeKK, acmeKK]),
    resolver_uniqueness_and_stability.2.2 ⟨[acmeWB], 2⟩ envAllOk "untitled call" "M1"
      none none acmeWB (by simp [MidsDisjoint]) (by decide) (by decide)⟩

/-- Capping is stable under one more backoff step. -/
lemma min_mul_cap (x M b : ℚ) (hM : 0 ≤ M) (hb : 1 ≤ b) :
    min (min x M * b) M = min (x * b) M := by
  rcases le_total x M with h | h
  · rw [min_eq_left h]
  · rw [min_eq_right h]
    have hb0 : (0 : ℚ) ≤ b := le_trans zero_le_one hb
    have h2 : M ≤ M * b := le_mul_of_one_le_right hM hb
    rw [min_eq_right h2, min_eq_right]
    exact le_trans h2 (mul_le_mul_of_nonneg_right h hb0)

lemma retryGo_invocations_le {E A : Type} (f : Nat → Except E A) (base maxD : ℚ) :
    ∀ (rem attempt : Nat) (delay : ℚ) (delays : List ℚ),
      (retryGo f base maxD rem attempt delay delays).outcome.invocations ≤
        attempt + rem - 1 := by
  intro rem
  induction rem with
  | zero =>
    intro attempt delay delays
    simp [retryGo, RetryOutcome.invocations]
  | succ r ih =>
    intro attempt delay delays
    cases hf : f attempt with
    | ok a =>
      simp [retryGo, hf, RetryOutcome.invocations]
    | error e =>
      by_cases hr : r = 0
      · simp [retryGo, hf, hr, RetryOutcome.invocations]
      · simp only [retryGo, hf, if_neg hr]
        calc (retryGo f base maxD r (attempt + 1)
                (min (delay * base) maxD) (delays ++ [delay])).outcome.invocations
            ≤ attempt + 1 + r - 1 := ih (attempt + 1) _ _
          _ ≤ attempt + (r + 1) - 1 := by omega

lemma retryGo_success {E A : Type} (f : Nat → Except E A) (base maxD : ℚ)
    (a : A) (k : Nat) (hk : f k = .ok a) :
    ∀ (rem attempt : Nat) (delay : ℚ) (delays : List ℚ),
      attempt ≤ k → k < attempt + rem →
      (∀ j, attempt ≤ j → j < k → ∃ e, f j = .error e) →
      ∃ ds, retryGo f base maxD rem attempt delay delays = ⟨.success a k, ds⟩ := by
  intro rem
  induction rem with
  | zero =>
    intro attempt delay delays hak hka hfail
    omega
  | succ r ih =>
    intro attempt delay delays hak hka hfail
    by_cases hek : attempt = k
    · subst hek
      refine ⟨delays, ?_⟩
      simp [retryGo, hk]
    · have hlt : attempt < k := Nat.lt_of_le_of_ne hak hek
      obtain ⟨e, he⟩ := hfail attempt (Nat.le_refl _) hlt
      have hr : ¬r = 0 := by omega
      simp only [retryGo, he, if_neg hr]
      exact ih (attempt + 1) (min (delay * base) maxD) (delays ++ [delay])
        hlt (by omega) (fun j hj hjk => hfail j (by omega) hjk)

lemma retryGo_exhaust {E A : Type} (f : Nat → Except E A) (base maxD : ℚ)
    (es : Nat → E) :
    ∀ (rem attempt : Nat) (delay : ℚ) (delays : List ℚ),
      (∀ j, attempt ≤ j → j ≤ attempt + rem → f j = .error (es j)) →
      ∃ ds, retryGo f base maxD (rem + 1) attempt delay delays =
        ⟨.exhausted (es (attempt + rem)) (attempt + rem), ds⟩ := by
  intro rem
  induction rem with
  | zero =>
    intro attempt delay delays hall
    have he := hall attempt (Nat.le_refl _) (by omega)
    refine ⟨delays, ?_⟩
    simp [retryGo, he]
  | succ r ih =>
    intro attempt delay delays hall
    have he := hall attempt (Nat.le_refl _) (by omega)
    obtain ⟨ds, hds⟩ := ih (attempt + 1) (min (delay * base) maxD) (delays ++ [delay])
      (fun j hj hjr => hall j (by omega) (by omega))
    have harith : attempt + 1 + r = attempt + (r + 1) := by omega
    rw [harith] at hds
    refine ⟨ds, ?_⟩
    simp only [retryGo, he, if_neg (show ¬r + 1 = 0 by omega)]
    simp only [retryGo] at hds
    exact hds

lemma retryGo_delays_closed {E A : Type} (f : Nat → Except E A)
    (base maxD init : ℚ) (h0 : 0 ≤ init) (h1 : init ≤ maxD) (hb : 1 ≤ base) :
    ∀ (rem attempt : Nat) (m : Nat) (delays : List ℚ),
      delays.length = m →
      (∀ k d, delays.get? k = some d → d = min (init * base ^ k) maxD) →
      ∀ k d,
        (retryGo f base maxD rem attempt (min (init * base ^ m) maxD)
            delays).delays.get? k = some d →
        d = min (init * base ^ k) maxD := by
  intro rem
  induction rem with
  | zero =>
    intro attempt m delays hlen hprev k d hd
    rw [retryGo] at hd
    exact hprev k d hd
  | succ r ih =>
    intro attempt m delays hlen hprev k d hd
    cases hf : f attempt with
    | ok a =>
      simp only [retryGo, hf] at hd
      exact hprev k d hd
    | error e =>
      by_cases hr : r = 0
      · simp only [retryGo, hf, if_pos hr] at hd
        exact hprev k d hd
      · simp only [retryGo, hf, if_neg hr] at hd
        have hM : (0 : ℚ) ≤ maxD := le_trans h0 h1
        have hstep : min (min (init * base ^ m) maxD * base) maxD =
            min (init * base ^ (m + 1)) maxD := by
          rw [min_mul_cap _ _ _ hM hb, mul_assoc, ← pow_succ]
        rw [hstep] at hd
        refine ih (attempt + 1) (m + 1) (delays ++ [min (init * base ^ m) maxD])
          (by simp [hlen]) ?_ k d hd
        intro k2 d2 hk2
        rcases Nat.lt_or_ge k2 m with hlt | hge
        · rw [List.get?_append (by omega)] at hk2
          exact hprev k2 d2 hk2
        · by_cases hk2m : k2 = m
          · subst hk2m
            have hval : (delays ++ [min (init * base ^ k2) maxD]).get? k2 =
                some (min (init * base ^ k2) maxD) := by
              rw [List.get?_append_right (by omega)]
              simp [hlen]
            rw [hval] at hk2
            cases hk2
            rfl
          · have hnone : (delays ++ [min (init * base ^ m) maxD]).get? k2 = none := by
              rw [List.get?_eq_none]
              simp only [List.length_append, List.length_singleton, hlen]
              omega
            rw [hnone] at hk2
            cases hk2

/-- C9: the retry combinator invokes the wrapped operation at most N
times; the first successful attempt's value is returned with no further
invocation; if all N attempts raise, the Nth attempt's exception is
re-raised; and the delay slept before retry k+1 is the initial delay
times the exponential base to the k, capped at the maximum delay (for a
configuration with nonnegative initial delay not exceeding the maximum
and base at least 1, as at every call site). -/
theorem retry_combinator_spec :
    (∀ (E A : Type) (f : Nat → Except E A) (N : Nat) (init maxD base : ℚ),
        (asyncRetry f N init maxD base).outcome.invocations ≤ N) ∧
    (∀ (E A : Type) (f : Nat → Except E A) (N : Nat) (init maxD base : ℚ)
        (a : A) (k : Nat),
        1 ≤ k → k ≤ N → f k = .ok a →
        (∀ j, 1 ≤ j → j < k → ∃ e, f j = .error e) →
        ∃ ds, asyncRetry f N init maxD base = ⟨.success a k, ds⟩) ∧
    (∀ (E A : Type) (f : Nat → Except E A) (N : Nat) (init maxD base : ℚ)
        (es : Nat → E),
        1 ≤ N → (∀ j, 1 ≤ j → j ≤ N → f j = .error (es j)) →
        ∃ ds, asyncRetry f N init maxD base = ⟨.exhausted (es N) N, ds⟩) ∧
    (∀ (E A : Type) (f : Nat → Except E A) (N : Nat) (init maxD base : ℚ),
        0 ≤ init → init ≤ maxD → 1 ≤ base →
        ∀ k d, (asyncRetry f N init maxD base).delays.get? k = some d →
          d = min (init * base ^ k) maxD) := by
  refine ⟨?_, ?_, ?_, ?_⟩
  · intro E A f N init maxD base
    have := retryGo_invocations_le f base maxD N 1 init []
    rw [asyncRetry]
    omega
  · intro E A f N init maxD base a k hk1 hkN hfk hfail
    rw [asyncRetry]
    exact retryGo_success f base maxD a k hfk N 1 init [] hk1 (by omega)
      (fun j hj hjk => hfail j hj hjk)
  · intro E A f N init maxD base es hN hall
    obtain ⟨n, rfl⟩ : ∃ n, N = n + 1 := ⟨N - 1, by omega⟩
    obtain ⟨ds, hds⟩ := retryGo_exhaust f base maxD es n 1 init []
      (fun j hj hjn => hall j hj (by omega))
    refine ⟨ds, ?_⟩
    rw [asyncRetry, hds]
    have harith : 1 + n = n + 1 := by omega
    rw [harith]
  · intro E A f N init maxD base h0 h1 hb k d hd
    have hinit : min (init * base ^ 0) maxD = init := by
      rw [pow_zero, mul_one]
      exact min_eq_left h1
    have hcl := retryGo_delays_closed f base maxD init h0 h1 hb N 1 0 []
      rfl (fun k2 d2 h => by cases h)
    rw [hinit] at hcl
    exact hcl k d hd

/-- Witness for C9 at concrete operations: success on attempt 2 out of 3,
exhaustion after 3 failing attempts re-raising the 3rd error, and the
backoff schedule of the default-style configuration (1s initial, 60s cap,
base 2). -/
theorem retry_combinator_spec_witness :
    (asyncRetry retryOpOnce 3 1 60 2).outcome.invocations ≤ 3 ∧
      (∃ ds, asyncRetry retryOpOnce 3 1 60 2 = ⟨.success 7 2, ds⟩) ∧
      (∃ ds, asyncRetry retryOpAlwaysFail 3 1 60 2 =
        ⟨.exhausted (retryErrText 3) 3, ds⟩) ∧
      (∀ k d, (asyncRetry retryOpAlwaysFail 3 1 60 2).delays.get? k = some d →
        d = min (1 * 2 ^ k) 60) :=
  ⟨retry_combinator_spec.1 Err Nat retryOpOnce 3 1 60 2,
    retry_combinator_spec.2.1 Err Nat retryOpOnce 3 1 60 2 7 2
      (by omega) (by omega) rfl
      (fun j h1 h2 => ⟨"boom 1", by
        have hj : j = 1 := by omega
        subst hj
        rfl⟩),
    retry_combinator_spec.2.2.1 Err Nat retryOpAlwaysFail 3 1 60 2 retryErrText
      (by omega) (fun j _ _ => rfl),
    retry_combinator_spec.2.2.2 Err Nat retryOpAlwaysFail 3 1 60 2
      (by norm_num) (by norm_num) (by norm_num)⟩

lemma failHandler_outcome (rec : Recording) (st : ClientsState) (tr : List Event)
    (e : Err) : (failHandler rec st tr e).outcome = .error e := rfl

lemma failHandler_status (rec : Recording) (st : ClientsState) (tr : List Event)
    (e : Err) : (failHandler rec st tr e).record.status = .failed := rfl

/-- Completion path of step 9 under a successful outcome. -/
lemma stage9_ok (env : Env) (st : ClientsState) (rec : Recording) (tr : List Event)
    (h : (stage9 env st rec tr).outcome = .ok ()) :
    (stage9 env st rec tr).trace = tr ++ [.statusWrite .completed] ∧
      env.notifyComplete = .ok () := by
  unfold stage9 at h ⊢
  cases hn : env.notifyComplete with
  | error e => simp [hn, failHandler] at h
  | ok u => simp [hn]

lemma stage8b_ok (env : Env) (others : List Recording) (st : ClientsState)
    (rec : Recording) (tr : List Event)
    (h : (stage8b env others st rec tr).outcome = .ok ()) :
    (stage8b env others st rec tr).trace = tr ++ [.statusWrite .completed] ∧
      env.notifyComplete = .ok () := by
  unfold stage8b at h ⊢
  cases hs : env.sheetsUpdateClientSummary with
  | error e => simp [hs, failHandler] at h
  | ok u =>
    simp only [hs] at h ⊢
    exact stage9_ok env st rec tr h

lemma stage8_ok (env : Env) (others : List Recording) (st : ClientsState)
    (co : Option Client) (rec : Recording) (tr : List Event)
    (h : (stage8 env others st co rec tr).outcome = .ok ()) :
    (stage8 env others st co rec tr).trace = tr ++ [.statusWrite .completed] ∧
      env.notifyComplete = .ok () := by
  unfold stage8 at h ⊢
  cases co with
  | none => exact stage9_ok env st rec tr h
  | some c =>
    cases hu : updateClientSummary st (others ++ [rec]) env c.id with
    | error e => simp [hu, failHandler] at h
    | ok pr =>
      rcases pr with ⟨cum, st'⟩
      simp only [hu] at h ⊢
      cases hp : c.notion_page_id with
      | some pid =>
        simp only [hp] at h ⊢
        cases hn : env.notionUpdateClientSummary with
        | error e => simp [hn, failHandler] at h
        | ok u =>
          simp only [hn] at h ⊢
          exact stage8b_ok env others st' rec tr h
      | none =>
        simp only [hp] at h ⊢
        exact stage8b_ok env others st' rec tr h

lemma stage7_ok (env : Env) (others : List Recording) (st : ClientsState)
    (co : Option Client) (rec : Recording) (tr : List Event)
    (h : (stage7 env others st co rec tr).outcome = .ok ()) :
    (stage7 env others st co rec tr).trace = tr ++ [.statusWrite .completed] ∧
      (∃ v, env.calendarFind = .ok v) ∧ env.notifyComplete = .ok () := by
  unfold stage7 at h ⊢
  cases hc : env.calendarFind with
  | error e => simp [hc, failHandler] at h
  | ok v =>
    cases v with
    | none =>
      simp only [hc] at h ⊢
      obtain ⟨h1, h2⟩ := stage8_ok env others st co rec tr h
      exact ⟨h1, ⟨none, rfl⟩, h2⟩
    | some eventId =>
      simp only [hc] at h ⊢
      cases hu : env.calendarUpdate with
      | error e => simp [hu, failHandler] at h
      | ok u =>
        simp only [hu] at h ⊢
        obtain ⟨h1, h2⟩ := stage8_ok env others st co _ tr h
        exact ⟨h1, ⟨some eventId, rfl⟩, h2⟩

lemma stage6c_ok (env : Env) (others : List Recording) (st : ClientsState)
    (co : Option Client) (rec : Recording) (tr : List Event)
    (h : (stage6c env others st co rec tr).outcome = .ok ()) :
    (stage6c env others st co rec tr).trace = tr ++ [.statusWrite .completed] ∧
      (∃ v, env.calendarFind = .ok v) ∧ env.notifyComplete = .ok () := by
  unfold stage6c at h ⊢
  cases hs : env.sheetsAppendMeeting with
  | error e => simp [hs, failHandler] at h
  | ok u =>
    simp only [hs] at h ⊢
    cases co with
    | some c =>
      cases hcs : env.sheetsAppendClientSheet with
      | error e => simp [hcs, failHandler] at h
      | ok u2 =>
        simp only [hcs] at h ⊢
        exact stage7_ok env others st _ rec tr h
    | none => exact stage7_ok env others st none rec tr h

lemma stage6b_ok (env : Env) (others : List Recording) (st : ClientsState)
    (co : Option Client) (rec : Recording) (tr : List Event)
    (h : (stage6b env others st co rec tr).outcome = .ok ()) :
    (stage6b env others st co rec tr).trace = tr ++ [.statusWrite .completed] ∧
      (∃ v, env.calendarFind = .ok v) ∧ env.notifyComplete = .ok () := by
  unfold stage6b at h ⊢
  cases hn : env.notionCreateMeetingPage with
  | error e => simp [hn, failHandler] at h
  | ok pid =>
    simp only [hn] at h ⊢
    exact stage6c_ok env others st co _ tr h

lemma stage6_ok (env : Env) (others : List Recording) (st : ClientsState)
    (co : Option Client) (rec : Recording) (tr : List Event)
    (h : (stage6 env others st co rec tr).outcome = .ok ()) :
    (stage6 env others st co rec tr).trace =
        tr ++ [.statusWrite .saving, .statusWrite .completed] ∧
      (∃ v, env.calendarFind = .ok v) ∧ env.notifyComplete = .ok () := by
  unfold stage6 at h ⊢
  cases co with
  | none =>
    obtain ⟨h1, h2⟩ := stage6b_ok env others st none _ _ h
    rw [h1]
    simp
    exact h2
  | some c =>
    cases hp : c.notion_page_id with
    | some pid =>
      simp only [hp] at h ⊢
      obtain ⟨h1, h2⟩ := stage6b_ok env others st (some c) _ _ h
      rw [h1]
      simp
      exact h2
    | none =>
      simp only [hp] at h ⊢
      cases hn : env.notionCreateClientPage with
      | error e => simp [hn, failHandler] at h
      | ok pid =>
        simp only [hn] at h ⊢
        obtain ⟨h1, h2⟩ := stage6b_ok env others _ _ _ _ h
        rw [h1]
        simp
        exact h2

/-- Every event the resolver emits is the AI-tier query event, carrying
the domain list (and its rendering) derived from the supplied emails. -/
lemma identifyTier3_events_spec (st : ClientsState) (env : Env)
    (title mid : String) (ts : Option String) (em : Option (List String)) :
    ∀ ev ∈ (identifyTier3 st env title mid ts em).events,
      ∃ p, ev = Event.identifyQuery (extractDomains (em.getD []))
        (domainsText (extractDomains (em.getD []))) p := by
  intro ev hev
  cases hp : matchByTitlePattern st.clients title with
  | some c0 => simp [identifyTier3, hp] at hev
  | none =>
    simp only [identifyTier3, hp] at hev
    unfold identifyTier4 at hev
    cases ts with
    | none => simp at hev
    | some t =>
      by_cases ht : t = ""
      · simp [ht] at hev
      · simp only [if_neg ht] at hev
        cases hg : env.gpt (identifyPrompt title
            (domainsText (extractDomains (em.getD []))) (pySlice t 1000)) with
        | error e =>
          simp only [hg, List.mem_singleton] at hev
          exact ⟨_, hev⟩
        | ok raw =>
          simp only [hg] at hev
          by_cases hinf : pyStrip raw ≠ "" ∧ pyStrip raw ≠ "不明"
          · rcases hgo : getOrCreateClient st (pyStrip raw) mid with ⟨cg, stg⟩
            simp only [hgo, if_pos hinf, List.mem_singleton] at hev
            exact ⟨_, hev⟩
          · simp only [if_neg hinf, List.mem_singleton] at hev
            exact ⟨_, hev⟩

lemma identify_events_spec (st : ClientsState) (env : Env)
    (title mid : String) (ts : Option String) (em : Option (List String)) :
    ∀ ev ∈ (identifyClient st env title mid ts em).events,
      ∃ p, ev = Event.identifyQuery (extractDomains (em.getD []))
        (domainsText (extractDomains (em.getD []))) p := by
  intro ev hev
  cases h1 : matchByMeetingId st.clients mid with
  | some c => simp [identifyClient, h1] at hev
  | none =>
    simp only [identifyClient, h1] at hev
    cases hext : extractClientFromTitle title with
    | some name =>
      simp only [hext] at hev
      by_cases hn : name = ""
      · simp only [if_pos hn] at hev
        exact identifyTier3_events_spec st env title mid ts em ev hev
      · rcases hgo : getOrCreateClient st name mid with ⟨cg, stg⟩
        simp [if_neg hn, hgo] at hev
    | none =>
      simp only [hext] at hev
      exact identifyTier3_events_spec st env title mid ts em ev hev

lemma statusWrites_append (a b : List Event) :
    statusWrites (a ++ b) = statusWrites a ++ statusWrites b := by
  simp [statusWrites, List.filterMap_append]

/-- The resolver's events contribute no status writes. -/
lemma statusWrites_identify (st : ClientsState) (env : Env)
    (title mid : String) (ts : Option String) (em : Option (List String)) :
    statusWrites (identifyClient st env title mid ts em).events = [] := by
  rw [statusWrites, List.filterMap_eq_nil]
  intro ev hev
  obtain ⟨p, hp⟩ := identify_events_spec st env title mid ts em ev hev
  subst hp
  rfl

/-- A successful run writes exactly the six stage statuses in order, and
required the calendar lookup and completion notification to succeed. -/
lemma processRecording_ok (env : Env) (others : List Recording)
    (st0 : ClientsState) (rec0 : Recording)
    (h : (processRecording env others st0 rec0).outcome = .ok ()) :
    statusWrites (processRecording env others st0 rec0).trace =
        [.downloading, .uploading_youtube, .transcribing, .summarizing,
          .saving, .completed] ∧
      (∃ v, env.calendarFind = .ok v) ∧ env.notifyComplete = .ok () := by
  unfold processRecording at h ⊢
  cases hd : env.download with
  | error e => simp [hd, failHandler] at h
  | ok file =>
  simp only [hd] at h ⊢
  cases hu : env.upload with
  | error e => simp [hu, failHandler] at h
  | ok url =>
  simp only [hu] at h ⊢
  cases ht : env.transcribe with
  | error e => simp [ht, failHandler] at h
  | ok t =>
  simp only [ht] at h ⊢
  cases hs : env.gpt (summaryPrompt (truncateTranscript t)) with
  | error e => simp [hs, failHandler] at h
  | ok s =>
  cases hde : env.gpt (decisionsPrompt (truncateTranscript t)) with
  | error e => simp [hs, hde, failHandler] at h
  | ok d =>
  cases ha : env.gpt (actionsPrompt (truncateTranscript t)) with
  | error e => simp [hs, hde, ha, failHandler] at h
  | ok a =>
  simp only [hs, hde, ha] at h ⊢
  rcases hid : identifyClient st0 env rec0.topic rec0.zoom_meeting_id
      (if t ≠ "" then some (pySlice t 2000) else none) none with ⟨res, st5, evs5⟩
  have hevs : statusWrites evs5 = [] := by
    have hi := statusWrites_identify st0 env rec0.topic rec0.zoom_meeting_id
      (if t ≠ "" then some (pySlice t 2000) else none) none
    rw [hid] at hi
    exact hi
  simp only [hid] at h ⊢
  cases res with
  | error e => simp [failHandler] at h
  | ok co =>
  cases co with
  | some c =>
    dsimp only at h ⊢
    obtain ⟨h1, h2⟩ := stage6_ok env others st5 (some c) _ _ h
    refine ⟨?_, h2⟩
    rw [h1]
    simp [statusWrites_append, hevs, statusWrites]
    intro ev hev
    have h3 : statusWrites evs5 = [] := hevs
    rw [statusWrites, List.filterMap_eq_nil] at h3
    exact h3 ev hev
  | none =>
    dsimp only at h ⊢
    cases hni : env.notifyIdentify with
    | error e => simp [hni, failHandler] at h
    | ok u =>
      simp only [hni] at h ⊢
      obtain ⟨h1, h2⟩ := stage6_ok env others st5 none _ _ h
      refine ⟨?_, h2⟩
      rw [h1]
      simp [statusWrites_append, hevs, statusWrites]
      intro ev hev
      have h3 : statusWrites evs5 = [] := hevs
      rw [statusWrites, List.filterMap_eq_nil] at h3
      exact h3 ev hev

/-- C1 counterexample: a concrete fully-successful run. The persisted
sequence is correct in order, but the stored token of the video-upload
stage is `uploading_youtube`, not the spec's state name `uploading_video`,
so the token sequence differs from the claimed one. -/
theorem pipeline_status_tokens_counterexample :
    (processRecording envAllOk [] ⟨[], 1⟩ recPending).outcome = .ok () ∧
      recPending.status = .pending ∧
      (recPending.status ::
          statusWrites (processRecording envAllOk [] ⟨[], 1⟩ recPending).trace).map
          ProcessingStatus.value ≠
        ["pending", "downloading", "uploading_video", "transcribing",
          "summarizing", "saving", "completed"] := by
  refine ⟨by decide, by decide, by decide⟩

/-- C1 (amended: the video-upload stage's stored token is
`uploading_youtube`): every successful run of the pipeline on a pending
recording persists exactly the ordered token sequence `pending,
downloading, uploading_youtube, transcribing, summarizing, saving,
completed`, with no stage skipped or repeated. -/
theorem pipeline_status_sequence :
    ∀ (env : Env) (others : List Recording) (st0 : ClientsState) (rec0 : Recording),
      (processRecording env others st0 rec0).outcome = .ok () →
      rec0.status = .pending →
      (rec0.status ::
          statusWrites (processRecording env others st0 rec0).trace).map
          ProcessingStatus.value =
        ["pending", "downloading", "uploading_youtube", "transcribing",
          "summarizing", "saving", "completed"] := by
  intro env others st0 rec0 hok hpend
  obtain ⟨h1, -, -⟩ := processRecording_ok env others st0 rec0 hok
  rw [h1, hpend]
  rfl

/-- Witness for C1's amended sequence at a concrete successful run. -/
theorem pipeline_status_sequence_witness :
    (recPending.status ::
        statusWrites (processRecording envAllOk [] ⟨[], 1⟩ recPending).trace).map
        ProcessingStatus.value =
      ["pending", "downloading", "uploading_youtube", "transcribing",
        "summarizing", "saving", "completed"] :=
  pipeline_status_sequence envAllOk [] ⟨[], 1⟩ recPending (by decide) (by decide)

/-- C4: a transcription failure stops the run fail-fast: the YouTube
reference persisted by the upload stage survives, no transcript or later
output is stored, status is `failed` with the truncated error text, the
retry counter grows by exactly one, the clients table is untouched, and
no later stage's status is ever written. -/
theorem transcribe_failure_fail_fast :
    ∀ (env : Env) (others : List Recording) (st0 : ClientsState) (rec0 : Recording)
      (f url : String) (e : Err),
      env.download = .ok f → env.upload = .ok url → env.transcribe = .error e →
      rec0.transcript = none →
      (processRecording env others st0 rec0).record.youtube_url = some url ∧
        (processRecording env others st0 rec0).record.transcript = none ∧
        (processRecording env others st0 rec0).record.status = .failed ∧
        (processRecording env others st0 rec0).record.error_message =
          some (pySlice e 2000) ∧
        (processRecording env others st0 rec0).record.retry_count =
          rec0.retry_count + 1 ∧
        (processRecording env others st0 rec0).record.summary = rec0.summary ∧
        (processRecording env others st0 rec0).record.decisions = rec0.decisions ∧
        (processRecording env others st0 rec0).record.action_items =
          rec0.action_items ∧
        (processRecording env others st0 rec0).record.client_id = rec0.client_id ∧
        (processRecording env others st0 rec0).record.notion_page_id =
          rec0.notion_page_id ∧
        (processRecording env others st0 rec0).record.calendar_event_id =
          rec0.calendar_event_id ∧
        (processRecording env others st0 rec0).record.completed_at =
          rec0.completed_at ∧
        statusWrites (processRecording env others st0 rec0).trace =
          [.downloading, .uploading_youtube, .transcribing, .failed] ∧
        (processRecording env others st0 rec0).st = st0 ∧
        (processRecording env others st0 rec0).outcome = .error e := by
  intro env others st0 rec0 f url e hd hu ht htr
  simp [processRecording, hd, hu, ht, failHandler, statusWrites, htr]

/-- Witness for C4 at a concrete environment whose transcription fails. -/
theorem transcribe_failure_fail_fast_witness :
    (processRecording envTranscribeFail [] ⟨[], 1⟩ recPending).record.youtube_url =
        some "https://youtu.be/video1" ∧
      (processRecording envTranscribeFail [] ⟨[], 1⟩ recPending).record.transcript =
        none ∧
      (processRecording envTranscribeFail [] ⟨[], 1⟩ recPending).record.status =
        .failed ∧
      (processRecording envTranscribeFail [] ⟨[], 1⟩ recPending).record.error_message =
        some (pySlice "whisper failed" 2000) ∧
      (processRecording envTranscribeFail [] ⟨[], 1⟩ recPending).record.retry_count =
        recPending.retry_count + 1 ∧
      (processRecording envTranscribeFail [] ⟨[], 1⟩ recPending).record.summary =
        recPending.summary ∧
      (processRecording envTranscribeFail [] ⟨[], 1⟩ recPending).record.decisions =
        recPending.decisions ∧
      (processRecording envTranscribeFail [] ⟨[], 1⟩ recPending).record.action_items =
        recPending.action_items ∧
      (processRecording envTranscribeFail [] ⟨[], 1⟩ recPending).record.client_id =
        recPending.client_id ∧
      (processRecording envTranscribeFail [] ⟨[], 1⟩ recPending).record.notion_page_id =
        recPending.notion_page_id ∧
      (processRecording envTranscribeFail [] ⟨[], 1⟩ recPending).record.calendar_event_id =
        recPending.calendar_event_id ∧
      (processRecording envTranscribeFail [] ⟨[], 1⟩ recPending).record.completed_at =
        recPending.completed_at ∧
      statusWrites (processRecording envTranscribeFail [] ⟨[], 1⟩ recPending).trace =
        [.downloading, .uploading_youtube, .transcribing, .failed] ∧
      (processRecording envTranscribeFail [] ⟨[], 1⟩ recPending).st = ⟨[], 1⟩ ∧
      (processRecording envTranscribeFail [] ⟨[], 1⟩ recPending).outcome =
        .error "whisper failed" :=
  transcribe_failure_fail_fast envTranscribeFail [] ⟨[], 1⟩ recPending
    "/tmp/rec/M1.mp4" "https://youtu.be/video1" "whisper failed"
    rfl rfl rfl rfl

/-- Every erroring stage ends with the failure handler's record. -/
lemma stage9_error (env : Env) (st : ClientsState) (rec : Recording)
    (tr : List Event) (e : Err) (h : (stage9 env st rec tr).outcome = .error e) :
    (stage9 env st rec tr).record.status = .failed := by
  unfold stage9 at h ⊢
  cases hn : env.notifyComplete with
  | error e2 => rfl
  | ok u => simp [hn] at h

lemma stage8b_error (env : Env) (others : List Recording) (st : ClientsState)
    (rec : Recording) (tr : List Event) (e : Err)
    (h : (stage8b env others st rec tr).outcome = .error e) :
    (stage8b env others st rec tr).record.status = .failed := by
  unfold stage8b at h ⊢
  cases hs : env.sheetsUpdateClientSummary with
  | error e2 => rfl
  | ok u => exact stage9_error env st rec tr e (by simpa [hs] using h)

lemma stage8_error (env : Env) (others : List Recording) (st : ClientsState)
    (co : Option Client) (rec : Recording) (tr : List Event) (e : Err)
    (h : (stage8 env others st co rec tr).outcome = .error e) :
    (stage8 env others st co rec tr).record.status = .failed := by
  unfold stage8 at h ⊢
  cases co with
  | none => exact stage9_error env st rec tr e h
  | some c =>
    cases hu : updateClientSummary st (others ++ [rec]) env c.id with
    | error e2 => simp [hu]; rfl
    | ok pr =>
      rcases pr with ⟨cum, st'⟩
      simp only [hu] at h ⊢
      cases hp : c.notion_page_id with
      | some pid =>
        simp only [hp] at h ⊢
        cases hn : env.notionUpdateClientSummary with
        | error e2 => rfl
        | ok u =>
          simp only [hn] at h ⊢
          exact stage8b_error env others st' rec tr e h
      | none =>
        simp only [hp] at h ⊢
        exact stage8b_error env others st' rec tr e h

lemma stage7_error (env : Env) (others : List Recording) (st : ClientsState)
    (co : Option Client) (rec : Recording) (tr : List Event) (e : Err)
    (h : (stage7 env others st co rec tr).outcome = .error e) :
    (stage7 env others st co rec tr).record.status = .failed := by
  unfold stage7 at h ⊢
  cases hc : env.calendarFind with
  | error e2 => rfl
  | ok v =>
    cases v with
    | none =>
      simp only [hc] at h ⊢
      exact stage8_error env others st co rec tr e h
    | some eventId =>
      simp only [hc] at h ⊢
      cases hu : env.calendarUpdate with
      | error e2 => rfl
      | ok u =>
        simp only [hu] at h ⊢
        exact stage8_error env others st co _ tr e h

lemma stage6c_error (env : Env) (others : List Recording) (st : ClientsState)
    (co : Option Client) (rec : Recording) (tr : List Event) (e : Err)
    (h : (stage6c env others st co rec tr).outcome = .error e) :
    (stage6c env others st co rec tr).record.status = .failed := by
  unfold stage6c at h ⊢
  cases hs : env.sheetsAppendMeeting with
  | error e2 => rfl
  | ok u =>
    simp only [hs] at h ⊢
    cases co with
    | some c =>
      cases hcs : env.sheetsAppendClientSheet with
      | error e2 => rfl
      | ok u2 =>
        simp only [hcs] at h ⊢
        exact stage7_error env others st _ rec tr e h
    | none => exact stage7_error env others st none rec tr e h

lemma stage6b_error (env : Env) (others : List Recording) (st : ClientsState)
    (co : Option Client) (rec : Recording) (tr : List Event) (e : Err)
    (h : (stage6b env others st co rec tr).outcome = .error e) :
    (stage6b env others st co rec tr).record.status = .failed := by
  unfold stage6b at h ⊢
  cases hn : env.notionCreateMeetingPage with
  | error e2 => rfl
  | ok pid =>
    simp only [hn] at h ⊢
    exact stage6c_error env others st co _ tr e h

lemma stage6_error (env : Env) (others : List Recording) (st : ClientsState)
    (co : Option Client) (rec : Recording) (tr : List Event) (e : Err)
    (h : (stage6 env others st co rec tr).outcome = .error e) :
    (stage6 env others st co rec tr).record.status = .failed := by
  unfold stage6 at h ⊢
  cases co with
  | none => exact stage6b_error env others st none _ _ e h
  | some c =>
    cases hp : c.notion_page_id with
    | some pid =>
      simp only [hp] at h ⊢
      exact stage6b_error env others st (some c) _ _ e h
    | none =>
      simp only [hp] at h ⊢
      cases hn : env.notionCreateClientPage with
      | error e2 => rfl
      | ok pid =>
        simp only [hn] at h ⊢
        exact stage6b_error env others _ _ _ _ e h

/-- Any run that re-raises ends with the recording in status `failed`. -/
lemma processRecording_error (env : Env) (others : List Recording)
    (st0 : ClientsState) (rec0 : Recording) (e : Err)
    (h : (processRecording env others st0 rec0).outcome = .error e) :
    (processRecording env others st0 rec0).record.status = .failed := by
  unfold processRecording at h ⊢
  cases hd : env.download with
  | error e2 => rfl
  | ok file =>
  simp only [hd] at h ⊢
  cases hu : env.upload with
  | error e2 => rfl
  | ok url =>
  simp only [hu] at h ⊢
  cases ht : env.transcribe with
  | error e2 => rfl
  | ok t =>
  simp only [ht] at h ⊢
  cases hs : env.gpt (summaryPrompt (truncateTranscript t)) with
  | error e2 => simp only [hs]; rfl
  | ok s =>
  cases hde : env.gpt (decisionsPrompt (truncateTranscript t)) with
  | error e2 => simp only [hs, hde]; rfl
  | ok d =>
  cases ha : env.gpt (actionsPrompt (truncateTranscript t)) with
  | error e2 => simp only [hs, hde, ha]; rfl
  | ok a =>
  simp only [hs, hde, ha] at h ⊢
  rcases hid : identifyClient st0 env rec0.topic rec0.zoom_meeting_id
      (if t ≠ "" then some (pySlice t 2000) else none) none with ⟨res, st5, evs5⟩
  simp only [hid] at h ⊢
  cases res with
  | error e2 => rfl
  | ok co =>
  cases co with
  | some c =>
    dsimp only at h ⊢
    exact stage6_error env others st5 (some c) _ _ e h
  | none =>
    dsimp only at h ⊢
    cases hni : env.notifyIdentify with
    | error e2 => rfl
    | ok u =>
      simp only [hni] at h ⊢
      exact stage6_error env others st5 none _ _ e h

/-- C3 counterexample: with every other call succeeding, a raising
completion notification (resp. calendar lookup) sends the run to the
failure handler — the recording ends `failed`, not `completed`, and the
exception re-raises. -/
theorem side_channel_failure_counterexample :
    ((processRecording envNotifyFail [] ⟨[], 1⟩ recPending).record.status = .failed ∧
      (processRecording envNotifyFail [] ⟨[], 1⟩ recPending).record.status ≠
        .completed ∧
      (processRecording envNotifyFail [] ⟨[], 1⟩ recPending).outcome =
        .error "slack down") ∧
    ((processRecording envCalFail [] ⟨[], 1⟩ recPending).record.status = .failed ∧
      (processRecording envCalFail [] ⟨[], 1⟩ recPending).outcome =
        .error "calendar api down") := by
  refine ⟨⟨by decide, by decide, by decide⟩, by decide, by decide⟩

/-- C3 (amended: these side channels are *not* best-effort in the code).
An exception raised by the calendar lookup of step 7 or by the completion
notification of step 9 escalates: the run never reaches `completed`
(first two conjuncts), and any run whose handler re-raises leaves the
recording in status `failed` (third conjunct).  The only swallowed
side-channel failure is the processing-error notification inside the
failure handler itself; a calendar lookup that merely finds no event is
skipped without failing. -/
theorem side_channel_failures_escalate :
    (∀ (env : Env) (others : List Recording) (st0 : ClientsState)
        (rec0 : Recording) (e : Err),
        env.calendarFind = .error e →
        (processRecording env others st0 rec0).outcome ≠ .ok ()) ∧
    (∀ (env : Env) (others : List Recording) (st0 : ClientsState)
        (rec0 : Recording) (e : Err),
        env.notifyComplete = .error e →
        (processRecording env others st0 rec0).outcome ≠ .ok ()) ∧
    (∀ (env : Env) (others : List Recording) (st0 : ClientsState)
        (rec0 : Recording) (e : Err),
        (processRecording env others st0 rec0).outcome = .error e →
        (processRecording env others st0 rec0).record.status = .failed) := by
  refine ⟨?_, ?_, fun env others st0 rec0 e h =>
    processRecording_error env others st0 rec0 e h⟩
  · intro env others st0 rec0 e hcal hok
    obtain ⟨-, ⟨v, hv⟩, -⟩ := processRecording_ok env others st0 rec0 hok
    rw [hcal] at hv
    cases hv
  · intro env others st0 rec0 e hn hok
    obtain ⟨-, -, hv⟩ := processRecording_ok env others st0 rec0 hok
    rw [hn] at hv
    cases hv

/-- Witness for C3's amended theorem at the concrete failing
environments. -/
theorem side_channel_failures_escalate_witness :
    (processRecording envCalFail [] ⟨[], 1⟩ recPending).outcome ≠ .ok () ∧
      (processRecording envNotifyFail [] ⟨[], 1⟩ recPending).outcome ≠ .ok () ∧
      (processRecording envNotifyFail [] ⟨[], 1⟩ recPending).record.status =
        .failed :=
  ⟨side_channel_failures_escalate.1 envCalFail [] ⟨[], 1⟩ recPending
      "calendar api down" rfl,
    side_channel_failures_escalate.2.1 envNotifyFail [] ⟨[], 1⟩ recPending
      "slack down" rfl,
    side_channel_failures_escalate.2.2 envNotifyFail [] ⟨[], 1⟩ recPending
      "slack down" (by decide)⟩

/-- Steps 6–10 only append status-write events to the trace. -/
lemma stage9_shape (env : Env) (st : ClientsState) (rec : Recording)
    (tr : List Event) :
    ∃ suffix, (stage9 env st rec tr).trace = tr ++ suffix ∧
      ∀ d s p, Event.identifyQuery d s p ∉ suffix := by
  unfold stage9
  cases env.notifyComplete with
  | error e => exact ⟨[.statusWrite .failed], rfl, by simp⟩
  | ok u => exact ⟨[.statusWrite .completed], rfl, by simp⟩

lemma stage8b_shape (env : Env) (others : List Recording) (st : ClientsState)
    (rec : Recording) (tr : List Event) :
    ∃ suffix, (stage8b env others st rec tr).trace = tr ++ suffix ∧
      ∀ d s p, Event.identifyQuery d s p ∉ suffix := by
  unfold stage8b
  cases env.sheetsUpdateClientSummary with
  | error e => exact ⟨[.statusWrite .failed], rfl, by simp⟩
  | ok u => exact stage9_shape env st rec tr

lemma stage8_shape (env : Env) (others : List Recording) (st : ClientsState)
    (co : Option Client) (rec : Recording) (tr : List Event) :
    ∃ suffix, (stage8 env others st co rec tr).trace = tr ++ suffix ∧
      ∀ d s p, Event.identifyQuery d s p ∉ suffix := by
  unfold stage8
  cases co with
  | none => exact stage9_shape env st rec tr
  | some c =>
    cases hu : updateClientSummary st (others ++ [rec]) env c.id with
    | error e =>
      simp only [hu]
      exact ⟨[.statusWrite .failed], rfl, by simp⟩
    | ok pr =>
      rcases pr with ⟨cum, st'⟩
      simp only [hu]
      cases c.notion_page_id with
      | some pid =>
        cases hn : env.notionUpdateClientSummary with
        | error e =>
          simp only [hn]
          exact ⟨[.statusWrite .failed], rfl, by simp⟩
        | ok u =>
          simp only [hn]
          exact stage8b_shape env others st' rec tr
      | none => exact stage8b_shape env others st' rec tr

lemma stage7_shape (env : Env) (others : List Recording) (st : ClientsState)
    (co : Option Client) (rec : Recording) (tr : List Event) :
    ∃ suffix, (stage7 env others st co rec tr).trace = tr ++ suffix ∧
      ∀ d s p, Event.identifyQuery d s p ∉ suffix := by
  unfold stage7
  cases env.calendarFind with
  | error e => exact ⟨[.statusWrite .failed], rfl, by simp⟩
  | ok v =>
    cases v with
    | none => exact stage8_shape env others st co rec tr
    | some eventId =>
      cases env.calendarUpdate with
      | error e => exact ⟨[.statusWrite .failed], rfl, by simp⟩
      | ok u => exact stage8_shape env others st co _ tr

lemma stage6c_shape (env : Env) (others : List Recording) (st : ClientsState)
    (co : Option Client) (rec : Recording) (tr : List Event) :
    ∃ suffix, (stage6c env others st co rec tr).trace = tr ++ suffix ∧
      ∀ d s p, Event.identifyQuery d s p ∉ suffix := by
  unfold stage6c
  cases env.sheetsAppendMeeting with
  | error e => exact ⟨[.statusWrite .failed], rfl, by simp⟩
  | ok u =>
    cases co with
    | some c =>
      cases env.sheetsAppendClientSheet with
      | error e => exact ⟨[.statusWrite .failed], rfl, by simp⟩
      | ok u2 => exact stage7_shape env others st _ rec tr
    | none => exact stage7_shape env others st none rec tr

lemma stage6b_shape (env : Env) (others : List Recording) (st : ClientsState)
    (co : Option Client) (rec : Recording) (tr : List Event) :
    ∃ suffix, (stage6b env others st co rec tr).trace = tr ++ suffix ∧
      ∀ d s p, Event.identifyQuery d s p ∉ suffix := by
  unfold stage6b
  cases env.notionCreateMeetingPage with
  | error e => exact ⟨[.statusWrite .failed], rfl, by simp⟩
  | ok pid => exact stage6c_shape env others st co _ tr

lemma stage6_shape (env : Env) (others : List Recording) (st : ClientsState)
    (co : Option Client) (rec : Recording) (tr : List Event) :
    ∃ suffix, (stage6 env others st co rec tr).trace = tr ++ suffix ∧
      ∀ d s p, Event.identifyQuery d s p ∉ suffix := by
  have hsub : ∀ (st2 : ClientsState) (co2 : Option Client) (rec2 : Recording),
      ∃ suffix,
        (stage6b env others st2 co2 rec2 (tr ++ [Event.statusWrite .saving])).trace =
          tr ++ suffix ∧ ∀ d s p, Event.identifyQuery d s p ∉ suffix := by
    intro st2 co2 rec2
    obtain ⟨suffix, htr, hnm⟩ :=
      stage6b_shape env others st2 co2 rec2 (tr ++ [Event.statusWrite .saving])
    refine ⟨[Event.statusWrite .saving] ++ suffix, ?_, ?_⟩
    · rw [htr, List.append_assoc]
    · intro d s p hmem
      rcases List.mem_append.mp hmem with h | h
      · simp at h
      · exact hnm d s p h
  unfold stage6
  cases co with
  | none =>
    dsimp only
    exact hsub st none _
  | some c =>
    dsimp only
    cases hp : c.notion_page_id with
    | some pid =>
      simp only [hp]
      exact hsub st (some c) _
    | none =>
      simp only [hp]
      cases hn : env.notionCreateClientPage with
      | error e =>
        simp only [hn]
        exact ⟨[Event.statusWrite .saving, Event.statusWrite .failed],
          by simp [failHandler], by simp⟩
      | ok pid =>
        simp only [hn]
        exact hsub _ _ _

/-- C10: the pipeline never supplies participant emails to the resolver,
so every AI-tier query event of any run carries the empty email-domain
list and the fixed placeholder `不明` as the prompt's domains field. -/
theorem ai_tier_domains_fixed :
    ∀ (env : Env) (others : List Recording) (st0 : ClientsState)
      (rec0 : Recording) (d : List String) (s p : String),
      Event.identifyQuery d s p ∈ (processRecording env others st0 rec0).trace →
      d = [] ∧ s = "不明" := by
  intro env others st0 rec0 d s p hmem
  unfold processRecording at hmem
  cases hd : env.download with
  | error e => simp [hd, failHandler] at hmem
  | ok file =>
  simp only [hd] at hmem
  cases hu : env.upload with
  | error e => simp [hu, failHandler] at hmem
  | ok url =>
  simp only [hu] at hmem
  cases ht : env.transcribe with
  | error e => simp [ht, failHandler] at hmem
  | ok t =>
  simp only [ht] at hmem
  cases hs : env.gpt (summaryPrompt (truncateTranscript t)) with
  | error e => simp [hs, failHandler] at hmem
  | ok s2 =>
  cases hde : env.gpt (decisionsPrompt (truncateTranscript t)) with
  | error e => simp [hs, hde, failHandler] at hmem
  | ok d2 =>
  cases ha : env.gpt (actionsPrompt (truncateTranscript t)) with
  | error e => simp [hs, hde, ha, failHandler] at hmem
  | ok a2 =>
  simp only [hs, hde, ha] at hmem
  rcases hid : identifyClient st0 env rec0.topic rec0.zoom_meeting_id
      (if t ≠ "" then some (pySlice t 2000) else none) none with ⟨res, st5, evs5⟩
  have hevs : ∀ ev ∈ evs5, ∃ p2, ev = Event.identifyQuery [] "不明" p2 := by
    intro ev hev
    obtain ⟨p2, hp2⟩ := identify_events_spec st0 env rec0.topic rec0.zoom_meeting_id
      (if t ≠ "" then some (pySlice t 2000) else none) none ev (by rw [hid]; exact hev)
    refine ⟨p2, ?_⟩
    rw [hp2]
    rfl
  have hconc : ∀ (tail : List Event),
      (∀ d2 s2 p2, Event.identifyQuery d2 s2 p2 ∉ tail) →
      Event.identifyQuery d s p ∈
        ([Event.statusWrite .downloading] ++ [Event.statusWrite .uploading_youtube] ++
            [Event.statusWrite .transcribing] ++ [Event.statusWrite .summarizing] ++
          evs5) ++ tail →
      d = [] ∧ s = "不明" := by
    intro tail hnm hmem2
    rcases List.mem_append.mp hmem2 with h | h
    · rcases List.mem_append.mp h with h2 | h2
      · simp [List.mem_append] at h2
      · obtain ⟨p2, hp2⟩ := hevs _ h2
        simp only [Event.identifyQuery.injEq] at hp2
        exact ⟨hp2.1, hp2.2.1⟩
    · exact absurd h (hnm d s p)
  simp only [hid] at hmem
  cases res with
  | error e =>
    dsimp only [failHandler] at hmem
    exact hconc [Event.statusWrite ProcessingStatus.failed] (by simp) hmem
  | ok co =>
  cases co with
  | some c =>
    dsimp only at hmem
    obtain ⟨suffix, htr, hnm⟩ := stage6_shape env others st5 (some c) _ _
    rw [htr] at hmem
    exact hconc suffix hnm hmem
  | none =>
    dsimp only at hmem
    cases hni : env.notifyIdentify with
    | error e =>
      simp only [hni] at hmem
      dsimp only [failHandler] at hmem
      exact hconc [Event.statusWrite ProcessingStatus.failed] (by simp) hmem
    | ok u =>
      simp only [hni] at hmem
      obtain ⟨suffix, htr, hnm⟩ := stage6_shape env others st5 none _ _
      rw [htr] at hmem
      exact hconc suffix hnm hmem

/-- Witness for C10: a concrete run that reaches the AI tier; its query
event carries the empty domain list and the `不明` placeholder. -/
theorem ai_tier_domains_fixed_witness :
    ([] : List String) = [] ∧ "不明" = "不明" :=
  ai_tier_domains_fixed envAllOk [] ⟨[], 1⟩ recPending [] "不明"
    (identifyPrompt "T" "不明" "hello transcript") (by decide)
